import Mathlib

/-!
Verification of the reference-checking core of `AdassChecks.py`.

Python strings are embedded as `List Char` (`PyStr`).  The helper
functions below reproduce the Python string primitives the source uses
(`strip`, `find`, `split`, `replace`, slicing, …) with Python's exact
conventions (`find` returns -1 when absent, `split` keeps empty fields,
`strip()` removes whitespace from both ends).  File and console I/O is
the embedding boundary: each checking routine is modelled as a pure
function from the in-memory data the Python code works on (the lines of
a file, the lists of reference keys) to its results, and a printed or
accumulated diagnostic becomes an element of a returned list.
-/

set_option maxHeartbeats 1000000

namespace AdassChecks

abbrev PyStr := List Char

/-- Python whitespace test used by `strip()`/`split()`. -/
def ws (c : Char) : Bool := c.isWhitespace

/-- The character `{`. -/
def lb : Char := Char.ofNat 123

/-- The character `}`. -/
def rb : Char := Char.ofNat 125

/-- The single-quote character. -/
def sq : Char := Char.ofNat 39

/-- Python `s.lstrip()`. -/
def pyStripL (l : PyStr) : PyStr := l.dropWhile ws

/-- Python `s.rstrip()`. -/
def pyStripR (l : PyStr) : PyStr := (l.reverse.dropWhile ws).reverse

/-- Python `s.strip()`. -/
def pyStrip (l : PyStr) : PyStr := pyStripR (pyStripL l)

/-- Python `s.rstrip(chars)`. -/
def pyRstripSet (s : List Char) (l : PyStr) : PyStr :=
  (l.reverse.dropWhile (fun c => decide (c ∈ s))).reverse

/-- Python `s.strip(chars)`. -/
def pyStripSet (s : List Char) (l : PyStr) : PyStr :=
  ((l.dropWhile (fun c => decide (c ∈ s))).reverse.dropWhile (fun c => decide (c ∈ s))).reverse

/-- The characters stripped by `rstrip("\r\n")` (source line 370). -/
def crlf : List Char := [Char.ofNat 13, Char.ofNat 10]

/-- Python `s.lower()`. -/
def pyLower (l : PyStr) : PyStr := l.map Char.toLower

/-- Index of the first occurrence of a character, if any. -/
def pyFindCharN (l : PyStr) (c : Char) : Option Nat :=
  match l with
  | [] => none
  | x :: t => if x = c then some 0 else (pyFindCharN t c).map (· + 1)

/-- Python `s.find(c)` for a single-character pattern: index or -1. -/
def pyFindChar (l : PyStr) (c : Char) : Int :=
  match pyFindCharN l c with
  | some n => (n : Int)
  | none => -1

/-- Index of the first occurrence of a substring, if any. -/
def pyFindSubN (l pat : PyStr) : Option Nat :=
  match l with
  | [] => if pat.isPrefixOf ([] : PyStr) then some 0 else none
  | x :: t => if pat.isPrefixOf (x :: t) then some 0 else (pyFindSubN t pat).map (· + 1)

/-- Python `s.find(pat)`: index of the first occurrence or -1. -/
def pyFindSub (l pat : PyStr) : Int :=
  match pyFindSubN l pat with
  | some n => (n : Int)
  | none => -1

/-- Python `s.rfind(c)`: index of the last occurrence or -1. -/
def pyRFindChar (l : PyStr) (c : Char) : Int :=
  match pyFindCharN l.reverse c with
  | some n => ((l.length - 1 - n : Nat) : Int)
  | none => -1

/-- Python slice `s[a:b]`. -/
def pySlice (a b : Nat) (l : PyStr) : PyStr := (l.take b).drop a

/-- Python `s.split(c)` for a one-character separator: empty fields kept. -/
def pySplit (c : Char) (l : PyStr) : List PyStr :=
  match l with
  | [] => [[]]
  | x :: t =>
    let r := pySplit c t
    if x = c then [] :: r
    else
      match r with
      | [] => [[x]]
      | h :: t2 => (x :: h) :: t2

theorem length_dropWhile_le' (p : Char → Bool) (l : PyStr) :
    (l.dropWhile p).length ≤ l.length := by
  induction l with
  | nil => simp
  | cons x t ih =>
    by_cases h : p x
    · simp only [List.dropWhile_cons, h, if_true]
      exact Nat.le_trans ih (Nat.le_succ _)
    · simp [List.dropWhile_cons, h]

/-- Fuelled worker for `pySplitWs`; each round consumes at least one
character, so `l.length + 1` fuel always suffices. -/
def pySplitWsGo (fuel : Nat) (l : PyStr) : List PyStr :=
  match fuel with
  | 0 => []
  | fuel + 1 =>
    match l.dropWhile ws with
    | [] => []
    | x :: t =>
      (x :: t.takeWhile (fun c => ¬ ws c)) :: pySplitWsGo fuel (t.dropWhile (fun c => ¬ ws c))

/-- Python `s.split()` with no argument: split on whitespace runs, no empty fields. -/
def pySplitWs (l : PyStr) : List PyStr := pySplitWsGo (l.length + 1) l

/-- Python `s.replace(c, rep)` for a one-character pattern. -/
def pyReplaceChar (c : Char) (rep : PyStr) (l : PyStr) : PyStr :=
  match l with
  | [] => []
  | x :: t => (if x = c then rep else [x]) ++ pyReplaceChar c rep t

/-- Fuelled worker for `pyReplaceSub`; each round consumes at least one
character, so `l.length + 1` fuel always suffices. -/
def pyReplaceSubGo (fuel : Nat) (l pat rep : PyStr) : PyStr :=
  match fuel with
  | 0 => l
  | fuel + 1 =>
    match l with
    | [] => []
    | x :: t =>
      if pat ≠ [] ∧ pat.isPrefixOf (x :: t) then
        rep ++ pyReplaceSubGo fuel ((x :: t).drop pat.length) pat rep
      else x :: pyReplaceSubGo fuel t pat rep

/-- Python `s.replace(pat, rep)` (left-to-right, non-overlapping); the source
never calls it with an empty pattern, and for an empty pattern this model
returns the string unchanged. -/
def pyReplaceSub (l pat rep : PyStr) : PyStr := pyReplaceSubGo (l.length + 1) l pat rep

/-! ### Facts about the Python string helpers -/

theorem dropWhile_append_all {p : Char → Bool} {a : PyStr} (b : PyStr)
    (h : ∀ c ∈ a, p c = true) : (a ++ b).dropWhile p = b.dropWhile p := by
  induction a with
  | nil => rfl
  | cons x t ih =>
    have hx : p x = true := h x (List.mem_cons_self x t)
    simp only [List.cons_append, List.dropWhile_cons, hx, if_true]
    exact ih (fun c hc => h c (List.mem_cons_of_mem x hc))

theorem dropWhile_append_of_ne_nil {p : Char → Bool} {a : PyStr} (b : PyStr)
    (h : a.dropWhile p ≠ []) : (a ++ b).dropWhile p = a.dropWhile p ++ b := by
  induction a with
  | nil => simp at h
  | cons x t ih =>
    by_cases hx : p x
    · simp only [List.dropWhile_cons, hx, if_true] at h ⊢
      simp only [List.cons_append, List.dropWhile_cons, hx, if_true]
      exact ih h
    · simp [List.dropWhile_cons, hx]

theorem dropWhile_head_false {p : Char → Bool} {l : PyStr} {x : Char} {t : PyStr}
    (h : l.dropWhile p = x :: t) : p x = false := by
  induction l with
  | nil => simp at h
  | cons y s ih =>
    by_cases hy : p y
    · simp only [List.dropWhile_cons, hy, if_true] at h
      exact ih h
    · simp only [List.dropWhile_cons, hy, if_false] at h
      cases h
      simpa using hy

theorem dropWhile_length_eq {p : Char → Bool} {l : PyStr}
    (h : (l.dropWhile p).length = l.length) : l.dropWhile p = l := by
  induction l with
  | nil => rfl
  | cons x t ih =>
    by_cases hx : p x
    · simp only [List.dropWhile_cons, hx, if_true] at h
      have := length_dropWhile_le' p t
      simp only [List.length_cons] at h
      omega
    · simp [List.dropWhile_cons, hx]

theorem pyStripL_eq_of_strip {k : PyStr} (h : pyStrip k = k) : pyStripL k = k := by
  have h1 : (pyStripL k).length ≤ k.length := length_dropWhile_le' ws k
  have h2 : (pyStrip k).length ≤ (pyStripL k).length := by
    unfold pyStrip pyStripR
    simpa using length_dropWhile_le' ws (pyStripL k).reverse
  rw [h] at h2
  exact dropWhile_length_eq (Nat.le_antisymm h1 h2)

theorem pyStripR_eq_of_strip {k : PyStr} (h : pyStrip k = k) : pyStripR k = k := by
  have hL := pyStripL_eq_of_strip h
  unfold pyStrip at h
  rwa [hL] at h

theorem pyStripR_cons_of_ne_nil {l : PyStr} (x : Char) (h : pyStripR l ≠ []) :
    pyStripR (x :: l) = x :: pyStripR l := by
  unfold pyStripR at h ⊢
  have h2 : l.reverse.dropWhile ws ≠ [] := by
    intro hnil
    rw [hnil] at h
    exact h rfl
  rw [List.reverse_cons, dropWhile_append_of_ne_nil [x] h2]
  simp

theorem pyStripR_cons_nonws {c : Char} (l : PyStr) (h : ws c = false) :
    pyStripR (c :: l) = c :: pyStripR l := by
  unfold pyStripR
  rw [List.reverse_cons]
  match hm : l.reverse.dropWhile ws with
  | [] =>
    rw [dropWhile_append_all [c] (List.dropWhile_eq_nil_iff.mp hm)]
    simp [List.dropWhile_cons, h, hm]
  | x :: t =>
    rw [dropWhile_append_of_ne_nil [c] (by rw [hm]; simp), hm]
    simp

theorem pyStripR_append_mid (a : PyStr) {c : Char} (b : PyStr) (h : ws c = false) :
    pyStripR (a ++ c :: b) = a ++ c :: pyStripR b := by
  induction a with
  | nil => simpa using pyStripR_cons_nonws b h
  | cons x t ih =>
    have hne : pyStripR (t ++ c :: b) ≠ [] := by
      rw [ih]
      simp
    rw [List.cons_append, pyStripR_cons_of_ne_nil x hne, ih]
    simp

theorem pyStrip_cons_nonws {c : Char} (l : PyStr) (h : ws c = false) :
    pyStrip (c :: l) = c :: pyStripR l := by
  unfold pyStrip pyStripL
  rw [List.dropWhile_cons]
  simp only [h, Bool.false_eq_true, if_false]
  exact pyStripR_cons_nonws l h

theorem pyStrip_ws_append {w : PyStr} (l : PyStr) (h : ∀ c ∈ w, ws c = true) :
    pyStrip (w ++ l) = pyStrip l := by
  unfold pyStrip pyStripL
  rw [dropWhile_append_all l h]

theorem pyStripL_head_nonws {k : PyStr} {c : Char} {t : PyStr}
    (h : pyStripL k = k) (hk : k = c :: t) : ws c = false := by
  subst hk
  unfold pyStripL at h
  by_cases hc : ws c
  · exfalso
    rw [List.dropWhile_cons] at h
    simp only [hc, if_true] at h
    have := length_dropWhile_le' ws t
    have := congrArg List.length h
    simp only [List.length_cons] at this
    omega
  · simpa using hc

theorem crlf_mem_ws {c : Char} (h : c ∈ crlf) : ws c = true := by
  simp only [crlf, List.mem_cons, List.not_mem_nil, or_false] at h
  rcases h with rfl | rfl
  · decide
  · decide

theorem pyRstripSet_crlf_strip (l : PyStr) :
    pyRstripSet crlf (pyStrip l) = pyStrip l := by
  unfold pyStrip pyStripR pyRstripSet
  rw [List.reverse_reverse]
  match hm : (pyStripL l).reverse.dropWhile ws with
  | [] => simp
  | x :: t =>
    have hx : ws x = false := dropWhile_head_false hm
    have hmem : x ∉ crlf := by
      intro hc
      rw [crlf_mem_ws hc] at hx
      exact Bool.noConfusion hx
    rw [List.dropWhile_cons]
    simp [hmem]

theorem pyFindCharN_append_first {c : Char} {a : PyStr} (b : PyStr) (h : c ∉ a) :
    pyFindCharN (a ++ c :: b) c = some a.length := by
  induction a with
  | nil => simp [pyFindCharN]
  | cons x t ih =>
    have hx : x ≠ c := by
      intro he
      exact h (he ▸ List.mem_cons_self x t)
    have ht : c ∉ t := fun hm => h (List.mem_cons_of_mem x hm)
    simp [pyFindCharN, hx, ih ht]

theorem pyFindCharN_eq_none {c : Char} {l : PyStr} (h : c ∉ l) :
    pyFindCharN l c = none := by
  induction l with
  | nil => rfl
  | cons x t ih =>
    have hx : x ≠ c := by
      intro he
      exact h (he ▸ List.mem_cons_self x t)
    have ht : c ∉ t := fun hm => h (List.mem_cons_of_mem x hm)
    simp [pyFindCharN, hx, ih ht]

/-! ### `GetBibFileRefs` — the database record scanner (source lines 308-423)

The Python routine scans the `.bib` file line by line with a three-state
machine (`NEED_AT`, `NEED_BRACE`, `NEED_COMMA`).  The model below is the
per-line transition `bibStep` folded over the list of file lines; opening
the file, and the `print` of a warning in interactive mode, are the I/O
boundary (a warning becomes an element of the returned warning list). -/

/-- Scanner states of `GetBibFileRefs`. -/
inductive BState : Type
  | NEED_AT
  | NEED_BRACE
  | NEED_COMMA
deriving DecidableEq

/-- The fixed list of expected BibTeX entry types (source lines 344-346). -/
def ExpectedTypes : List PyStr :=
  ["article".data, "book".data, "booklet".data, "conference".data, "inbook".data,
   "incollection".data, "inproceedings".data, "manual".data, "mastersthesis".data,
   "misc".data, "phdthesis".data, "proceedings".data, "techreport".data,
   "unpublished".data]

/-- The warning text built at source lines 388-389. -/
def bibWarnMsg (entryType : PyStr) : PyStr :=
  "Unexpected .bib file entry ".data ++ [sq] ++ entryType ++ [sq] ++
    " - will default to ".data ++ [sq] ++ "MISC".data ++ [sq]

/-- The entry-type check of source lines 387-391: an unexpected type emits a
warning and resets the scanner state to `NEED_AT`. -/
def bibTypeCheck (entryType : PyStr) (st : BState) (refs warns : List PyStr) :
    BState × List PyStr × List PyStr :=
  if pyStrip (pyLower entryType) ∈ ExpectedTypes then (st, refs, warns)
  else (BState.NEED_AT, refs, warns ++ [bibWarnMsg entryType])

/-- One line of the `GetBibFileRefs` scan (the body of the loop at source
lines 354-417), acting on `(state, refs, warnings)`. -/
def bibStep (acc : BState × List PyStr × List PyStr) (line : PyStr) :
    BState × List PyStr × List PyStr :=
  let st0 := if ['@'].isPrefixOf (pyStrip line) then BState.NEED_AT else acc.1
  let refs := acc.2.1
  let warns := acc.2.2
  if st0 = BState.NEED_AT then
    let l := pyRstripSet crlf (pyStrip line)
    if ['@'].isPrefixOf l then
      let brace := pyFindChar l lb
      if brace > 0 then
        let entryType := pySlice 1 brace.toNat l
        let comma := pyFindChar l ','
        if comma > 0 then
          bibTypeCheck entryType BState.NEED_AT
            (refs ++ [pyStrip (pySlice (brace.toNat + 1) comma.toNat l)]) warns
        else bibTypeCheck entryType BState.NEED_COMMA refs warns
      else bibTypeCheck (l.drop 1) BState.NEED_BRACE refs warns
    else (BState.NEED_AT, refs, warns)
  else
    let p :=
      if st0 = BState.NEED_BRACE then
        let brace := pyFindChar line lb
        if brace ≥ 0 then (line.drop (brace.toNat + 1), BState.NEED_COMMA)
        else (line, BState.NEED_BRACE)
      else (line, st0)
    if p.2 = BState.NEED_COMMA then
      let l2 := pyStripL p.1
      let comma := pyFindChar l2 ','
      if comma > 0 then (BState.NEED_AT, refs ++ [pyStrip (l2.take comma.toNat)], warns)
      else (BState.NEED_COMMA, refs, warns)
    else (p.2, refs, warns)

/-- `GetBibFileRefs` on the lines of the database file, returning the
extracted reference keys together with the entry-type warnings. -/
def GetBibFileRefsFull (lines : List PyStr) : List PyStr × List PyStr :=
  (lines.foldl bibStep (BState.NEED_AT, [], [])).2

/-- The reference-key list returned by `GetBibFileRefs`. -/
def GetBibFileRefs (lines : List PyStr) : List PyStr :=
  (GetBibFileRefsFull lines).1

theorem pyFindChar_eq {l : PyStr} {c : Char} {n : Nat} (h : pyFindCharN l c = some n) :
    pyFindChar l c = (n : Int) := by
  unfold pyFindChar
  rw [h]

theorem pyFindChar_neg {l : PyStr} {c : Char} (h : pyFindCharN l c = none) :
    pyFindChar l c = -1 := by
  unfold pyFindChar
  rw [h]

/-- A line that (stripped) does not start with `@` leaves the scanner in
`NEED_AT` with nothing extracted. -/
theorem bibStep_skip (refs warns : List PyStr) (line : PyStr)
    (h : ['@'].isPrefixOf (pyStrip line) = false) :
    bibStep (BState.NEED_AT, refs, warns) line = (BState.NEED_AT, refs, warns) := by
  simp [bibStep, pyRstripSet_crlf_strip, h]

/-- Processing a one-line record header `@type{key,rest` from `NEED_AT`:
the key is appended and the scanner runs the entry-type check. -/
theorem bibStep_oneLine (t k rest : PyStr) (refs warns : List PyStr)
    (hlbt : lb ∉ t) (hct : (',' : Char) ∉ t) (hck : (',' : Char) ∉ k)
    (hk : pyStrip k = k) :
    bibStep (BState.NEED_AT, refs, warns) ('@' :: (t ++ lb :: (k ++ ',' :: rest))) =
      bibTypeCheck t BState.NEED_AT (refs ++ [k]) warns := by
  have hstrip : pyStrip ('@' :: (t ++ lb :: (k ++ ',' :: rest))) =
      '@' :: (t ++ lb :: (k ++ ',' :: pyStripR rest)) := by
    rw [pyStrip_cons_nonws _ (by decide)]
    have he : t ++ lb :: (k ++ ',' :: rest) = (t ++ lb :: k) ++ ',' :: rest := by simp
    rw [he, pyStripR_append_mid _ _ (by decide)]
    simp
  have hrs : pyRstripSet crlf ('@' :: (t ++ lb :: (k ++ ',' :: pyStripR rest))) =
      '@' :: (t ++ lb :: (k ++ ',' :: pyStripR rest)) := by
    rw [← hstrip, pyRstripSet_crlf_strip]
  have hbrace : pyFindCharN ('@' :: (t ++ lb :: (k ++ ',' :: pyStripR rest))) lb =
      some (t.length + 1) := by
    have he : '@' :: (t ++ lb :: (k ++ ',' :: pyStripR rest)) =
        ('@' :: t) ++ lb :: (k ++ ',' :: pyStripR rest) := by simp
    rw [he, pyFindCharN_append_first]
    · simp
    · simp only [List.mem_cons]
      rintro (h1 | h1)
      · exact absurd h1.symm (by decide)
      · exact hlbt h1
  have hcomma : pyFindCharN ('@' :: (t ++ lb :: (k ++ ',' :: pyStripR rest))) ',' =
      some (t.length + k.length + 2) := by
    have he : '@' :: (t ++ lb :: (k ++ ',' :: pyStripR rest)) =
        ('@' :: (t ++ lb :: k)) ++ ',' :: pyStripR rest := by simp
    rw [he, pyFindCharN_append_first]
    · simp
      omega
    · simp only [List.mem_cons, List.mem_append]
      rintro (h1 | h1 | h1)
      · exact absurd h1.symm (by decide)
      · exact hct h1
      · rcases h1 with h2 | h2
        · exact absurd h2.symm (by decide)
        · exact hck h2
  have htake1 : pySlice 1 (t.length + 1) ('@' :: (t ++ lb :: (k ++ ',' :: pyStripR rest))) = t := by
    unfold pySlice
    have he : '@' :: (t ++ lb :: (k ++ ',' :: pyStripR rest)) =
        ('@' :: t) ++ (lb :: (k ++ ',' :: pyStripR rest)) := by simp
    rw [he]
    have hlen : t.length + 1 = ('@' :: t).length := by simp
    rw [hlen, List.take_left]
    simp
  have htake2 : pySlice (t.length + 1 + 1) (t.length + k.length + 2)
      ('@' :: (t ++ lb :: (k ++ ',' :: pyStripR rest))) = k := by
    unfold pySlice
    have he : '@' :: (t ++ lb :: (k ++ ',' :: pyStripR rest)) =
        ('@' :: (t ++ lb :: k)) ++ (',' :: pyStripR rest) := by simp
    rw [he]
    have hlen : t.length + k.length + 2 = ('@' :: (t ++ lb :: k)).length := by
      simp
      omega
    rw [hlen, List.take_left]
    have he2 : '@' :: (t ++ lb :: k) = (('@' :: t) ++ [lb]) ++ k := by simp
    rw [he2]
    have hlen2 : t.length + 1 + 1 = (('@' :: t) ++ [lb]).length := by simp
    rw [hlen2, List.drop_left]
  have hpos1 : ((t.length + 1 : Nat) : Int) > 0 := by exact_mod_cast Nat.succ_pos _
  have hpos2 : ((t.length + k.length + 2 : Nat) : Int) > 0 := by
    have : 0 < t.length + k.length + 2 := by omega
    exact_mod_cast this
  have hpre : ['@'].isPrefixOf ('@' :: (t ++ lb :: (k ++ ',' :: pyStripR rest))) = true := by
    simp [List.isPrefixOf]
  simp only [bibStep, hstrip, hrs, hpre, pyFindChar_eq hbrace, pyFindChar_eq hcomma,
    if_true, if_pos hpos1, if_pos hpos2, Int.toNat_natCast]
  rw [htake1]
  have ht2 : t.length + 1 + 1 = t.length + 1 + 1 := rfl
  rw [htake2, hk]

/-- Processing a header line `@type{` from `NEED_AT`: no comma yet, so the
scanner is left waiting for the key (subject to the entry-type check). -/
theorem bibStep_typeOpen (t : PyStr) (refs warns : List PyStr)
    (hlbt : lb ∉ t) (hct : (',' : Char) ∉ t) :
    bibStep (BState.NEED_AT, refs, warns) ('@' :: (t ++ [lb])) =
      bibTypeCheck t BState.NEED_COMMA refs warns := by
  have hstrip : pyStrip ('@' :: (t ++ [lb])) = '@' :: (t ++ [lb]) := by
    rw [pyStrip_cons_nonws _ (by decide)]
    have he : t ++ [lb] = t ++ lb :: ([] : PyStr) := by simp
    rw [he, pyStripR_append_mid _ _ (by decide)]
    simp [pyStripR]
  have hrs : pyRstripSet crlf ('@' :: (t ++ [lb])) = '@' :: (t ++ [lb]) := by
    rw [← hstrip, pyRstripSet_crlf_strip]
  have hbrace : pyFindCharN ('@' :: (t ++ [lb])) lb = some (t.length + 1) := by
    have he : '@' :: (t ++ [lb]) = ('@' :: t) ++ lb :: ([] : PyStr) := by simp
    rw [he, pyFindCharN_append_first]
    · simp
    · simp only [List.mem_cons]
      rintro (h1 | h1)
      · exact absurd h1.symm (by decide)
      · exact hlbt h1
  have hcomma : pyFindCharN ('@' :: (t ++ [lb])) ',' = none := by
    apply pyFindCharN_eq_none
    simp only [List.mem_cons, List.mem_append, List.mem_singleton]
    rintro (h1 | h1 | h1)
    · exact absurd h1.symm (by decide)
    · exact hct h1
    · exact absurd h1.symm (by decide)
  have hpos1 : ((t.length + 1 : Nat) : Int) > 0 := by exact_mod_cast Nat.succ_pos _
  have hneg : ¬ ((-1 : Int) > 0) := by decide
  have hpre : ['@'].isPrefixOf ('@' :: (t ++ [lb])) = true := by
    simp [List.isPrefixOf]
  have htake1 : pySlice 1 (t.length + 1) ('@' :: (t ++ [lb])) = t := by
    unfold pySlice
    have he : '@' :: (t ++ [lb]) = ('@' :: t) ++ [lb] := by simp
    rw [he]
    have hlen : t.length + 1 = ('@' :: t).length := by simp
    rw [hlen, List.take_left]
    simp
  simp only [bibStep, hstrip, hrs, hpre, pyFindChar_eq hbrace, pyFindChar_neg hcomma,
    if_true, if_pos hpos1, if_neg hneg, Int.toNat_natCast]
  rw [htake1]

/-- Processing a header line `@type` (no brace) from `NEED_AT`: the scanner
is left waiting for the brace (subject to the entry-type check). -/
theorem bibStep_typeOnly (t : PyStr) (refs warns : List PyStr)
    (hlbt : lb ∉ t) (hts : pyStripR t = t) :
    bibStep (BState.NEED_AT, refs, warns) ('@' :: t) =
      bibTypeCheck t BState.NEED_BRACE refs warns := by
  have hstrip : pyStrip ('@' :: t) = '@' :: t := by
    rw [pyStrip_cons_nonws _ (by decide), hts]
  have hrs : pyRstripSet crlf ('@' :: t) = '@' :: t := by
    rw [← hstrip, pyRstripSet_crlf_strip]
  have hbrace : pyFindCharN ('@' :: t) lb = none := by
    apply pyFindCharN_eq_none
    simp only [List.mem_cons]
    rintro (h1 | h1)
    · exact absurd h1.symm (by decide)
    · exact hlbt h1
  have hneg : ¬ ((-1 : Int) > 0) := by decide
  have hpre : ['@'].isPrefixOf ('@' :: t) = true := by
    simp [List.isPrefixOf]
  simp only [bibStep, hstrip, hrs, hpre, pyFindChar_neg hbrace, if_true, if_neg hneg]
  simp

/-- Processing a bare `{` line (with whitespace indent) from `NEED_BRACE`:
the scanner advances to `NEED_COMMA` and extracts nothing. -/
theorem bibStep_braceOnly (preK : PyStr) (refs warns : List PyStr)
    (hpre : ∀ c ∈ preK, ws c = true) :
    bibStep (BState.NEED_BRACE, refs, warns) (preK ++ [lb]) =
      (BState.NEED_COMMA, refs, warns) := by
  have hstrip : pyStrip (preK ++ [lb]) = [lb] := by
    rw [pyStrip_ws_append _ hpre]
    decide
  have hnoat : ['@'].isPrefixOf (pyStrip (preK ++ [lb])) = false := by
    rw [hstrip]
    decide
  have hlbpre : lb ∉ preK := by
    intro hmem
    have := hpre lb hmem
    exact absurd this (by decide)
  have hbrace : pyFindCharN (preK ++ [lb]) lb = some preK.length := by
    have he : preK ++ [lb] = preK ++ lb :: ([] : PyStr) := by simp
    rw [he, pyFindCharN_append_first _ hlbpre]
  have hge : ((preK.length : Nat) : Int) ≥ 0 := by exact_mod_cast Nat.zero_le _
  have hdrop : (preK ++ [lb]).drop (preK.length + 1) = [] := by
    apply List.drop_eq_nil_of_le
    simp
  simp only [bibStep, hnoat, Bool.false_eq_true, if_false, pyFindChar_eq hbrace,
    if_pos hge, Int.toNat_natCast, hdrop]
  simp [pyStripL, pyFindChar, pyFindCharN]

/-- Processing an (indented) `key,rest` line from `NEED_COMMA`: the key is
extracted and the scanner returns to `NEED_AT`. -/
theorem bibStep_keyLine (preK k rest : PyStr) (refs warns : List PyStr)
    (hpre : ∀ c ∈ preK, ws c = true) (hknil : k ≠ [])
    (hck : (',' : Char) ∉ k) (hkstrip : pyStrip k = k) (hkat : k.headD ' ' ≠ '@') :
    bibStep (BState.NEED_COMMA, refs, warns) (preK ++ (k ++ ',' :: rest)) =
      (BState.NEED_AT, refs ++ [k], warns) := by
  obtain ⟨c, k', rfl⟩ : ∃ c k', k = c :: k' := by
    cases k with
    | nil => exact absurd rfl hknil
    | cons c k' => exact ⟨c, k', rfl⟩
  have hcw : ws c = false := pyStripL_head_nonws (pyStripL_eq_of_strip hkstrip) rfl
  have hcat : c ≠ '@' := by simpa using hkat
  have hnoat : ['@'].isPrefixOf (pyStrip (preK ++ ((c :: k') ++ ',' :: rest))) = false := by
    rw [pyStrip_ws_append _ hpre]
    have he : (c :: k') ++ ',' :: rest = c :: (k' ++ ',' :: rest) := by simp
    rw [he, pyStrip_cons_nonws _ hcw]
    simp [List.isPrefixOf]
    intro habs
    exact absurd habs.symm hcat
  have hlstrip : pyStripL (preK ++ ((c :: k') ++ ',' :: rest)) = (c :: k') ++ ',' :: rest := by
    unfold pyStripL
    rw [dropWhile_append_all _ hpre]
    have he : (c :: k') ++ ',' :: rest = c :: (k' ++ ',' :: rest) := by simp
    rw [he, List.dropWhile_cons]
    simp [hcw]
  have hcomma : pyFindCharN ((c :: k') ++ ',' :: rest) ',' = some (c :: k').length :=
    pyFindCharN_append_first _ hck
  have hpos : (((c :: k').length : Nat) : Int) > 0 := by
    have : 0 < (c :: k').length := by simp
    exact_mod_cast this
  have htake : ((c :: k') ++ ',' :: rest).take (c :: k').length = c :: k' :=
    List.take_left _ _
  have hlstrip2 : pyStripL (preK ++ c :: (k' ++ ',' :: rest)) = c :: (k' ++ ',' :: rest) := by
    simpa using hlstrip
  have hcomma2 : pyFindCharN (c :: (k' ++ ',' :: rest)) ',' = some (k'.length + 1) := by
    simpa using hcomma
  have hfind2 : pyFindChar (c :: (k' ++ ',' :: rest)) ',' = ((k'.length + 1 : Nat) : Int) :=
    pyFindChar_eq hcomma2
  have hpos2 : (0 : Int) < ((k'.length + 1 : Nat) : Int) := by exact_mod_cast Nat.succ_pos _
  have htake2 : (c :: (k' ++ ',' :: rest)).take (k'.length + 1) = c :: k' := by
    simpa using htake
  have hb : ['@'].isPrefixOf (pyStrip (preK ++ c :: (k' ++ ',' :: rest))) = false := by
    simpa using hnoat
  have hnoat2 : ¬ (['@'] <+: pyStrip (preK ++ c :: (k' ++ ',' :: rest))) := by
    intro hp
    rw [← List.isPrefixOf_iff_prefix, hb] at hp
    exact Bool.noConfusion hp
  simp [bibStep, hnoat2, hlstrip2, hfind2, hpos2, htake2, hkstrip]

/-- Processing an (indented) `{key,rest` line from `NEED_BRACE`: the brace is
found, the key extracted, and the scanner returns to `NEED_AT`. -/
theorem bibStep_braceKeyLine (preK k rest : PyStr) (refs warns : List PyStr)
    (hpre : ∀ c ∈ preK, ws c = true) (hknil : k ≠ [])
    (hck : (',' : Char) ∉ k) (hkstrip : pyStrip k = k) :
    bibStep (BState.NEED_BRACE, refs, warns) (preK ++ lb :: (k ++ ',' :: rest)) =
      (BState.NEED_AT, refs ++ [k], warns) := by
  obtain ⟨c, k', rfl⟩ : ∃ c k', k = c :: k' := by
    cases k with
    | nil => exact absurd rfl hknil
    | cons c k' => exact ⟨c, k', rfl⟩
  have hcw : ws c = false := pyStripL_head_nonws (pyStripL_eq_of_strip hkstrip) rfl
  have hnoat : ['@'].isPrefixOf (pyStrip (preK ++ lb :: ((c :: k') ++ ',' :: rest))) = false := by
    rw [pyStrip_ws_append _ hpre]
    rw [pyStrip_cons_nonws _ (by decide)]
    simp [List.isPrefixOf]
    intro habs
    exact absurd habs (by decide)
  have hlbpre : lb ∉ preK := by
    intro hmem
    have := hpre lb hmem
    exact absurd this (by decide)
  have hbrace : pyFindCharN (preK ++ lb :: ((c :: k') ++ ',' :: rest)) lb =
      some preK.length := pyFindCharN_append_first _ hlbpre
  have hge : ((preK.length : Nat) : Int) ≥ 0 := by exact_mod_cast Nat.zero_le _
  have hdrop : (preK ++ lb :: ((c :: k') ++ ',' :: rest)).drop (preK.length + 1) =
      (c :: k') ++ ',' :: rest := by
    have he : preK ++ lb :: ((c :: k') ++ ',' :: rest) =
        (preK ++ [lb]) ++ ((c :: k') ++ ',' :: rest) := by simp
    rw [he]
    have hlen : preK.length + 1 = (preK ++ [lb]).length := by simp
    rw [hlen, List.drop_left]
  have hlstrip : pyStripL ((c :: k') ++ ',' :: rest) = (c :: k') ++ ',' :: rest := by
    unfold pyStripL
    have he : (c :: k') ++ ',' :: rest = c :: (k' ++ ',' :: rest) := by simp
    rw [he, List.dropWhile_cons]
    simp [hcw]
  have hcomma : pyFindCharN ((c :: k') ++ ',' :: rest) ',' = some (c :: k').length :=
    pyFindCharN_append_first _ hck
  have hpos : (((c :: k').length : Nat) : Int) > 0 := by
    have : 0 < (c :: k').length := by simp
    exact_mod_cast this
  have htake : ((c :: k') ++ ',' :: rest).take (c :: k').length = c :: k' :=
    List.take_left _ _
  have hfindb : pyFindChar (preK ++ lb :: ((c :: k') ++ ',' :: rest)) lb =
      ((preK.length : Nat) : Int) := pyFindChar_eq hbrace
  have hlstrip2 : pyStripL (c :: (k' ++ ',' :: rest)) = c :: (k' ++ ',' :: rest) := by
    unfold pyStripL
    rw [List.dropWhile_cons]
    simp [hcw]
  have hcomma2 : pyFindCharN (c :: (k' ++ ',' :: rest)) ',' = some (k'.length + 1) := by
    simpa using hcomma
  have hfind2 : pyFindChar (c :: (k' ++ ',' :: rest)) ',' = ((k'.length + 1 : Nat) : Int) :=
    pyFindChar_eq hcomma2
  have hpos2 : (0 : Int) < ((k'.length + 1 : Nat) : Int) := by exact_mod_cast Nat.succ_pos _
  have htake2 : (c :: (k' ++ ',' :: rest)).take (k'.length + 1) = c :: k' := by
    simpa using htake
  have hdrop2 : (preK ++ lb :: (c :: (k' ++ ',' :: rest))).drop (preK.length + 1) =
      c :: (k' ++ ',' :: rest) := by
    simpa using hdrop
  have hb : ['@'].isPrefixOf (pyStrip (preK ++ lb :: c :: (k' ++ ',' :: rest))) = false := by
    simpa using hnoat
  have hnoat2 : ¬ (['@'] <+: pyStrip (preK ++ lb :: c :: (k' ++ ',' :: rest))) := by
    intro hp
    rw [← List.isPrefixOf_iff_prefix, hb] at hp
    exact Bool.noConfusion hp
  have hfindb2 : pyFindChar (preK ++ lb :: c :: (k' ++ ',' :: rest)) lb =
      ((preK.length : Nat) : Int) := by
    simpa using hfindb
  have hge2 : (0 : Int) ≤ ((preK.length : Nat) : Int) := by exact_mod_cast Nat.zero_le _
  simp [bibStep, hnoat2, hfindb2, hge2, hdrop2, hlstrip2, hfind2, hpos2, htake2, hkstrip]

/-! ### Well-formed database records

The source's own comment (lines 318-335) lists the record layouts the
scanner is meant to handle: everything on one line, `@type{` with the key
on the next line, `@type` with `{key,` on the next line, and `@type`,
`{`, `key,` on three lines.  `RecDesc` describes one record in one of
these layouts together with its field/closing lines (`body`). -/

/-- The four record layouts of the source comment at lines 318-335. -/
inductive RecShape : Type
  | oneLine
  | typeBrace
  | braceKey
  | braceThenKey
deriving DecidableEq

/-- A well-formed database record: entry type, key, indentation of the
continuation lines, trailing text after the key's comma, and the record's
remaining lines. -/
structure RecDesc where
  rtype : PyStr
  key : PyStr
  preK : PyStr
  rest : PyStr
  body : List PyStr
  shape : RecShape
deriving DecidableEq

/-- The physical lines of a record in its layout. -/
def RecDesc.lines (r : RecDesc) : List PyStr :=
  (match r.shape with
   | RecShape.oneLine => ['@' :: (r.rtype ++ lb :: (r.key ++ ',' :: r.rest))]
   | RecShape.typeBrace => ['@' :: (r.rtype ++ [lb]), r.preK ++ (r.key ++ ',' :: r.rest)]
   | RecShape.braceKey => ['@' :: r.rtype, r.preK ++ lb :: (r.key ++ ',' :: r.rest)]
   | RecShape.braceThenKey =>
       ['@' :: r.rtype, r.preK ++ [lb], r.preK ++ (r.key ++ ',' :: r.rest)]) ++ r.body

/-- Well-formedness of a record: a nonempty stripped comma-free key not
opening with the record marker, a recognised comma- and brace-free entry
type, whitespace indentation, and body lines that do not begin with the
record marker. -/
def RecDesc.wf (r : RecDesc) : Prop :=
  r.key ≠ [] ∧ pyStrip r.key = r.key ∧ (',' : Char) ∉ r.key ∧ r.key.headD ' ' ≠ '@' ∧
  lb ∉ r.rtype ∧ (',' : Char) ∉ r.rtype ∧ pyStripR r.rtype = r.rtype ∧
  pyStrip (pyLower r.rtype) ∈ ExpectedTypes ∧
  (∀ c ∈ r.preK, ws c = true) ∧
  (∀ bl ∈ r.body, ['@'].isPrefixOf (pyStrip bl) = false)

instance (r : RecDesc) : Decidable r.wf := by
  unfold RecDesc.wf
  infer_instance

theorem foldl_body (body : List PyStr) (refs warns : List PyStr)
    (h : ∀ bl ∈ body, ['@'].isPrefixOf (pyStrip bl) = false) :
    body.foldl bibStep (BState.NEED_AT, refs, warns) = (BState.NEED_AT, refs, warns) := by
  induction body with
  | nil => rfl
  | cons b bs ih =>
    rw [List.foldl_cons, bibStep_skip _ _ _ (h b (List.mem_cons_self b bs))]
    exact ih (fun bl hbl => h bl (List.mem_cons_of_mem b hbl))

/-- Scanning a well-formed record from `NEED_AT` appends exactly its key,
emits no warning, and returns the scanner to `NEED_AT`. -/
theorem foldl_record (r : RecDesc) (hwf : r.wf) (refs warns : List PyStr) :
    r.lines.foldl bibStep (BState.NEED_AT, refs, warns) =
      (BState.NEED_AT, refs ++ [r.key], warns) := by
  obtain ⟨t, k, preK, rest, body, shape⟩ := r
  obtain ⟨hknil, hkstrip, hck, hkat, hlbt, hct, hts, htype, hpre, hbody⟩ := hwf
  have htc : ∀ st rs, bibTypeCheck t st rs warns = (st, rs, warns) := by
    intro st rs
    unfold bibTypeCheck
    rw [if_pos htype]
  cases shape with
  | oneLine =>
    simp only [RecDesc.lines, List.cons_append, List.nil_append, List.foldl_cons]
    rw [bibStep_oneLine t k rest refs warns hlbt hct hck hkstrip, htc]
    exact foldl_body body _ _ hbody
  | typeBrace =>
    simp only [RecDesc.lines, List.cons_append, List.nil_append, List.foldl_cons]
    rw [bibStep_typeOpen t refs warns hlbt hct, htc]
    rw [bibStep_keyLine preK k rest refs warns hpre hknil hck hkstrip hkat]
    exact foldl_body body _ _ hbody
  | braceKey =>
    simp only [RecDesc.lines, List.cons_append, List.nil_append, List.foldl_cons]
    rw [bibStep_typeOnly t refs warns hlbt hts, htc]
    rw [bibStep_braceKeyLine preK k rest refs warns hpre hknil hck hkstrip]
    exact foldl_body body _ _ hbody
  | braceThenKey =>
    simp only [RecDesc.lines, List.cons_append, List.nil_append, List.foldl_cons]
    rw [bibStep_typeOnly t refs warns hlbt hts, htc]
    rw [bibStep_braceOnly preK refs warns hpre]
    rw [bibStep_keyLine preK k rest refs warns hpre hknil hck hkstrip hkat]
    exact foldl_body body _ _ hbody

theorem foldl_records (rs : List RecDesc) (refs warns : List PyStr)
    (h : ∀ r ∈ rs, r.wf) :
    ((rs.map RecDesc.lines).join).foldl bibStep (BState.NEED_AT, refs, warns) =
      (BState.NEED_AT, refs ++ rs.map RecDesc.key, warns) := by
  induction rs generalizing refs with
  | nil => simp
  | cons r rs ih =>
    simp only [List.map_cons, List.join_cons, List.foldl_append]
    rw [foldl_record r (h r (List.mem_cons_self r rs)) refs warns]
    rw [ih _ (fun x hx => h x (List.mem_cons_of_mem r hx))]
    simp

/-- C5: for every database file made of N well-formed records,
`GetBibFileRefs` returns exactly the N record keys in file order,
including records whose type tag and key are split across two or three
physical lines (layouts `typeBrace`, `braceKey` and `braceThenKey`). -/
theorem C5_db_parser_returns_keys_in_order (rs : List RecDesc)
    (h : ∀ r ∈ rs, r.wf) :
    GetBibFileRefs ((rs.map RecDesc.lines).join) = rs.map RecDesc.key := by
  unfold GetBibFileRefs GetBibFileRefsFull
  rw [foldl_records rs [] [] h]
  simp

/-- A three-line record used as a concrete instance. -/
def exRec1 : RecDesc :=
  { rtype := "ARTICLE".data, key := "gamma2017".data, preK := "   ".data,
    rest := [], body := ["  title = x,".data, [rb]], shape := RecShape.braceThenKey }

/-- A one-line record used as a concrete instance. -/
def exRec2 : RecDesc :=
  { rtype := "misc".data, key := "delta".data, preK := [],
    rest := " note = 1".data, body := [[rb]], shape := RecShape.oneLine }

/-- Witness for C5 at a concrete two-record file (one record split over
three lines, one on a single line). -/
theorem C5_db_parser_witness :
    GetBibFileRefs (([exRec1, exRec2].map RecDesc.lines).join) =
      ["gamma2017".data, "delta".data] := by
  have := C5_db_parser_returns_keys_in_order [exRec1, exRec2] (by decide)
  simpa [exRec1, exRec2] using this

/-- C6: a line whose stripped text begins with the record marker forces the
scanner state back to `NEED_AT` before the line is processed, whatever the
prior state was; consequently a well-formed record immediately following a
malformed (mis-bounded) record still has its key extracted correctly. -/
theorem C6_marker_always_resets_state :
    (∀ (st : BState) (refs warns : List PyStr) (line : PyStr),
        ['@'].isPrefixOf (pyStrip line) = true →
        bibStep (st, refs, warns) line = bibStep (BState.NEED_AT, refs, warns) line) ∧
    GetBibFileRefs ["@article".data ++ lb :: "incomplete".data,
                    "@book".data ++ lb :: "good,".data] = ["good".data] := by
  constructor
  · intro st refs warns line h
    simp only [bibStep, h, if_true]
  · decide

/-- Witness for C6: the reset fires from the `NEED_COMMA` state on a
concrete marker line. -/
theorem C6_marker_witness :
    bibStep (BState.NEED_COMMA, [], []) "@x".data =
      bibStep (BState.NEED_AT, [], []) "@x".data :=
  C6_marker_always_resets_state.1 BState.NEED_COMMA [] [] "@x".data (by decide)

/-- C4 (amended): a record with an unexpected type tag gets the
"will default to MISC" warning, and its key is still appended when the key
is on the same line as the type tag; but when the key is on a later line
the warning's state reset discards the record, and the key is not
extracted. -/
theorem C4_unexpected_type_same_line (t k rest : PyStr) (refs warns : List PyStr)
    (hlbt : lb ∉ t) (hct : (',' : Char) ∉ t) (hck : (',' : Char) ∉ k)
    (hk : pyStrip k = k) (hbad : pyStrip (pyLower t) ∉ ExpectedTypes) :
    bibStep (BState.NEED_AT, refs, warns) ('@' :: (t ++ lb :: (k ++ ',' :: rest))) =
      (BState.NEED_AT, refs ++ [k], warns ++ [bibWarnMsg t]) ∧
    GetBibFileRefsFull ["@badtype".data ++ [lb], "   key9,".data] =
      ([], [bibWarnMsg "badtype".data]) := by
  constructor
  · rw [bibStep_oneLine t k rest refs warns hlbt hct hck hk]
    unfold bibTypeCheck
    rw [if_neg hbad]
  · decide

/-- Witness for C4's amended statement at a concrete one-line record. -/
theorem C4_unexpected_type_witness :
    bibStep (BState.NEED_AT, [], []) ('@' :: ("badtype".data ++ lb :: ("k9".data ++ ',' :: []))) =
      (BState.NEED_AT, [] ++ ["k9".data], [] ++ [bibWarnMsg "badtype".data]) :=
  (C4_unexpected_type_same_line "badtype".data "k9".data [] [] []
    (by decide) (by decide) (by decide) (by decide) (by decide)).1

/-- Counterexample for C4 as stated: with the key on the line after the
unexpected type tag, the warning is emitted but no key is appended. -/
theorem C4_counterexample :
    GetBibFileRefs ["@badtype".data ++ [lb], "   key1,".data] = [] ∧
    (GetBibFileRefsFull ["@badtype".data ++ [lb], "   key1,".data]).2 =
      [bibWarnMsg "badtype".data] := by
  exact ⟨by decide, by decide⟩

/-! ### `ExtractRefs` and `RefsScanCallback` — the citation extractor
(source lines 290-299 and 784-868)

`ExtractRefs` walks the argument words of a directive and returns the
content of the first nonempty brace-delimited word with the braces
stripped.  The source then performs `Refs.replace(" ","")` whose result
is discarded (Python strings are immutable), and a `split` whose result
is likewise discarded, so neither has any effect: whitespace is NOT
removed here.  `RefsScanCallback` classifies `\cite`-family commands and
splits the extracted argument on commas; the model returns the keys it
would append to the cited/bibitem lists plus the problem strings it would
report. -/

/-- The loop of `ExtractRefs` over the words after the command name. -/
def extractRefsGo : List PyStr → PyStr
  | [] => []
  | w :: rest => if w ≠ [] ∧ w.headD ' ' = lb then pyStripSet [lb, rb] w else extractRefsGo rest

/-- `ExtractRefs` (source lines 290-299): the first brace-delimited word,
brace-stripped; the dead `replace`/`split` calls are not modelled because
their results are discarded. -/
def ExtractRefs (words : List PyStr) : PyStr :=
  extractRefsGo (words.drop 1)

/-- The allowed lower-case `\cite` suffixes (source lines 821-822). -/
def LowerCaseOptions : List PyStr :=
  ["t".data, "p".data, "t*".data, "p*".data, "alt".data, "alt*".data, "alp".data,
   "alp*".data, "num".data, "author".data, "author*".data, "year".data,
   "yearpar".data, "fullauthor".data]

/-- The allowed `\Cite` suffixes (source lines 833-834). -/
def UpperCaseOptions : List PyStr :=
  ["t".data, "p".data, "t*".data, "p*".data, "alt".data, "alt*".data, "alp".data,
   "alp*".data, "author".data, "author*".data]

/-- `RefsScanCallback` (source lines 784-868) on one directive's words,
returning the keys appended to the cited list, the keys appended to the
bibitem list, and the problem lines reported. -/
def RefsScanCallback (words : List PyStr) : List PyStr × List PyStr × List PyStr :=
  if words.length > 0 then
    let w0 := words.getD 0 []
    let cite :=
      if pyLower (w0.take 5) = "\\cite".data then
        let refs := ExtractRefs words
        let mp :=
          if w0.getD 1 ' ' = 'c' then
            if w0.length = 5 then
              (true, ["Note use of \\cite for reference ".data ++ [sq] ++ refs ++ [sq] ++
                        " in .tex file".data])
            else (decide (w0.drop 5 ∈ LowerCaseOptions), ([] : List PyStr))
          else
            if w0.length > 5 then (decide (w0.drop 5 ∈ UpperCaseOptions), [])
            else (false, [])
        if mp.1 = false then
          (([] : List PyStr),
           mp.2 ++ ["Note: use of ".data ++ List.intercalate [' '] words ++ " in .tex file".data])
        else
          if refs ≠ [] then (pySplit ',' refs, mp.2)
          else ([], mp.2 ++ ["Note: no reference list in ".data ++
                  List.intercalate [' '] words ++ " in .tex file".data])
      else ([], [])
    let bib :=
      if w0 = "\\bibitem".data then
        let refs := ExtractRefs words
        if refs ≠ [] then ([pyStripSet [lb, rb] refs], ([] : List PyStr))
        else ([], ["Note: no reference list in ".data ++ List.intercalate [' '] words ++
                "in .tex file".data])
      else ([], [])
    (cite.1, bib.1, cite.2 ++ bib.2)
  else ([], [], [])

/-- The first nonempty brace-delimited argument word, as the spec phrases
it; used to relate `ExtractRefs` to the spec's description. -/
def firstBraceArg : List PyStr → PyStr
  | [] => []
  | w :: rest => if w ≠ [] ∧ w.headD ' ' = lb then w else firstBraceArg rest

theorem extractRefsGo_eq_firstBraceArg (l : List PyStr) :
    extractRefsGo l = pyStripSet [lb, rb] (firstBraceArg l) := by
  induction l with
  | nil => simp [extractRefsGo, firstBraceArg, pyStripSet]
  | cons w rest ih =>
    simp only [extractRefsGo, firstBraceArg]
    by_cases hw : w ≠ [] ∧ w.headD ' ' = lb
    · rw [if_pos hw, if_pos hw]
    · rw [if_neg hw, if_neg hw]
      exact ih

/-- C3 (amended): for an allowed citation variant with a nonempty first
brace-delimited argument, the keys appended to the cited-keys list are
exactly the comma-separated fields of that argument as they stand — the
extraction does NOT trim surrounding whitespace (the `replace` call in
`ExtractRefs` discards its result, and the callers strip later). -/
theorem C3_allowed_cite_keys (cmd opt : PyStr) (args : List PyStr)
    (h : (opt ∈ LowerCaseOptions ∧ cmd = "\\cite".data ++ opt) ∨
         (opt ∈ UpperCaseOptions ∧ cmd = "\\Cite".data ++ opt))
    (harg : pyStripSet [lb, rb] (firstBraceArg args) ≠ []) :
    (RefsScanCallback (cmd :: args)).1 =
      pySplit ',' (pyStripSet [lb, rb] (firstBraceArg args)) := by
  have hrefs : ExtractRefs (cmd :: args) = pyStripSet [lb, rb] (firstBraceArg args) := by
    unfold ExtractRefs
    exact extractRefsGo_eq_firstBraceArg args
  rcases h with ⟨hmem, rfl⟩ | ⟨hmem, rfl⟩
  · have hne : opt ≠ [] := by
      intro h0
      rw [h0] at hmem
      revert hmem
      decide
    have hlen5 : ¬ ("\\cite".data ++ opt).length = 5 := by
      have h1 : ("\\cite".data ++ opt).length = 5 + opt.length := by
        simp
        omega
      have h2 := List.length_pos.mpr hne
      omega
    have htake : pyLower (("\\cite".data ++ opt).take 5) = "\\cite".data := by
      rw [show (5 : Nat) = ("\\cite".data).length from rfl, List.take_left]
      decide
    have hgd : ("\\cite".data ++ opt).getD 1 ' ' = 'c' := rfl
    have hdrop : ("\\cite".data ++ opt).drop 5 = opt := by
      rw [show (5 : Nat) = ("\\cite".data).length from rfl, List.drop_left]
    have hdec : decide (("\\cite".data ++ opt).drop 5 ∈ LowerCaseOptions) = true := by
      rw [hdrop]
      exact decide_eq_true hmem
    simp only [] at hrefs
    simp at hrefs
    simp +decide [RefsScanCallback, hrefs, htake, hgd, hlen5, hne, hmem, hdec, harg]
  · have hne : opt ≠ [] := by
      intro h0
      rw [h0] at hmem
      revert hmem
      decide
    have hlen5 : ("\\Cite".data ++ opt).length > 5 := by
      have h1 : ("\\Cite".data ++ opt).length = 5 + opt.length := by
        simp
        omega
      have h2 := List.length_pos.mpr hne
      omega
    have htake : pyLower (("\\Cite".data ++ opt).take 5) = "\\cite".data := by
      rw [show (5 : Nat) = ("\\Cite".data).length from rfl, List.take_left]
      decide
    have hdrop : ("\\Cite".data ++ opt).drop 5 = opt := by
      rw [show (5 : Nat) = ("\\Cite".data).length from rfl, List.drop_left]
    have hdec : decide (("\\Cite".data ++ opt).drop 5 ∈ UpperCaseOptions) = true := by
      rw [hdrop]
      exact decide_eq_true hmem
    have hlp : 0 < opt.length := List.length_pos.mpr hne
    simp only [] at hrefs
    simp at hrefs
    simp +decide [RefsScanCallback, hrefs, htake, hlen5, hne, hlp, hmem, hdec, harg]

/-- Witness for C3's amended statement: `\citep{k1, k2}` appends the raw
fields `"k1"` and `" k2"`. -/
theorem C3_allowed_cite_keys_witness :
    (RefsScanCallback ["\\citep".data, "\x7bk1, k2\x7d".data]).1 =
      ["k1".data, [' ', 'k', '2']] := by
  have := C3_allowed_cite_keys "\\citep".data "p".data ["\x7bk1, k2\x7d".data]
    (Or.inl ⟨by decide, by decide⟩) (by decide)
  rw [this]
  decide

/-- Counterexample for C3 as stated: for `\citep{a, b}` the second appended
key is `" b"`, which is not whitespace-trimmed. -/
theorem C3_counterexample :
    (RefsScanCallback ["\\citep".data, "\x7ba, b\x7d".data]).1 = ["a".data, [' ', 'b']] ∧
    pyStrip [' ', 'b'] ≠ [' ', 'b'] := by
  exact ⟨by decide, by decide⟩

/-! ### `VerifyRefs` — the reference reconciler (source lines 544-763)

The model covers the three comparison passes of `VerifyRefs` in batch
mode (both `Problems` and `Warnings` lists supplied), on an existing
`.tex` file, after the reference lists have been extracted: inputs are
the `.bib` keys, the cited keys and the `\bibitem` keys, plus the
`AllowBibitems` flag; outputs are the returned flag, the `Problems` list
and the `Warnings` list.  The interactive-only checks (the
`\bibliography{...}` directive scan at lines 587-608) run only when
`BatchMode` is false and are outside this model. -/

/-- The inner search of passes 1 and 3 (source lines 654-662 and 719-727):
scan the list in order, stopping at the first entry that matches the
stripped key exactly (`some true`) or case-insensitively (`some false`);
`none` when no entry matches. -/
def vrFindMatch (b : PyStr) (refs : List PyStr) : Option Bool :=
  match refs with
  | [] => none
  | t0 :: rest =>
    let t := pyStrip t0
    if b = t then some true
    else if pyLower b = pyLower t then some false
    else vrFindMatch b rest

/-- Warning text of source lines 664-665. -/
def vrMsgUnused (b : PyStr) : PyStr :=
  "Bib file reference ".data ++ b ++ " not used in .tex file".data

/-- Problem text of source lines 670-671. -/
def vrMsgCase1 (b : PyStr) : PyStr :=
  "Bib file reference ".data ++ b ++ " used with different case in .tex file".data

/-- Problem text of source lines 694-695. -/
def vrMsgItemUnused (b : PyStr) : PyStr :=
  "\\bibitem reference ".data ++ b ++ " not used in .tex file".data

/-- Problem text of source line 741. -/
def vrMsgUndef (t : PyStr) : PyStr :=
  ".tex file reference ".data ++ t ++ " undefined".data

/-- Problem text of source lines 746-747. -/
def vrMsgCase3 (t : PyStr) : PyStr :=
  ".tex file reference ".data ++ t ++ " defined but with different case".data

/-- Problem text of source lines 751-752. -/
def vrMsgAsBibitem (t : PyStr) : PyStr :=
  ".tex file reference ".data ++ t ++ " defined but as a \\bibitem entry".data

/-- One step of pass 1 (source lines 649-673), on `(problems, warnings,
allUsed)`. -/
def vrStep1 (texRefs : List PyStr) (acc : List PyStr × List PyStr × Bool) (b0 : PyStr) :
    List PyStr × List PyStr × Bool :=
  let b := pyStrip b0
  match vrFindMatch b texRefs with
  | none => (acc.1, acc.2.1 ++ [vrMsgUnused b], false)
  | some false => (acc.1 ++ [vrMsgCase1 b], acc.2.1, acc.2.2)
  | some true => acc

/-- One step of pass 2 (source lines 683-703), on `(problems, allUsed)`:
only exact (stripped) matches count. -/
def vrStep2 (texRefs : List PyStr) (acc : List PyStr × Bool) (i0 : PyStr) :
    List PyStr × Bool :=
  let i := pyStrip i0
  if texRefs.any (fun t => i == pyStrip t) then acc
  else (acc.1 ++ [vrMsgItemUnused i], false)

/-- One step of pass 3 (source lines 713-754), on `(problems, allFound)`.
A case-insensitive `\bibitem` match sets the misspelt variable
`AsBibItem` in the source (line 738), so it does not trigger the
"defined but as a bibitem entry" problem; the model reproduces that. -/
def vrStep3 (bibRefs bibItems : List PyStr) (allow : Bool) (acc : List PyStr × Bool)
    (t0 : PyStr) : List PyStr × Bool :=
  let t := pyStrip t0
  match vrFindMatch t bibRefs with
  | some true => acc
  | some false => (acc.1 ++ [vrMsgCase3 t], acc.2)
  | none =>
    match vrFindMatch t bibItems with
    | some true => if allow then acc else (acc.1 ++ [vrMsgAsBibitem t], acc.2)
    | some false => (acc.1 ++ [vrMsgCase3 t], acc.2)
    | none => (acc.1 ++ [vrMsgUndef t], false)

/-- The batch-mode reconciliation core of `VerifyRefs` (source lines
614-763): returns `(ReturnOK, Problems, Warnings)`.  In batch mode the
`\bibitem` listing (lines 627-632) adds problem lines but does not clear
`ReturnOK`; only the three passes' "missing" outcomes do. -/
def VerifyRefsBatch (bibRefs texRefs bibItems : List PyStr) (allowBibitems : Bool) :
    Bool × List PyStr × List PyStr :=
  let itemProbs :=
    if bibItems.length > 0 ∧ ¬ allowBibitems then
      "Tex file has the following \\bibitem directives:".data :: bibItems.map pyStrip
    else []
  let r1 := bibRefs.foldl (vrStep1 texRefs) ([], [], true)
  let r2 := bibItems.foldl (vrStep2 texRefs) ([], true)
  let r3 := texRefs.foldl (vrStep3 bibRefs bibItems allowBibitems) ([], true)
  (r1.2.2 && r2.2 && r3.2, itemProbs ++ r1.1 ++ r2.1 ++ r3.1, r1.2.1)

theorem vrFoldl1_flag (texRefs : List PyStr) (l : List PyStr)
    (acc : List PyStr × List PyStr × Bool) :
    (l.foldl (vrStep1 texRefs) acc).2.2 =
      (acc.2.2 && l.all (fun b => (vrFindMatch (pyStrip b) texRefs).isSome)) := by
  induction l generalizing acc with
  | nil => simp
  | cons b bs ih =>
    rw [List.foldl_cons, ih]
    simp only [List.all_cons]
    unfold vrStep1
    match hm : vrFindMatch (pyStrip b) texRefs with
    | none => simp [hm]
    | some true => simp [hm]
    | some false => simp [hm]

theorem vrFoldl2_flag (texRefs : List PyStr) (l : List PyStr) (acc : List PyStr × Bool) :
    (l.foldl (vrStep2 texRefs) acc).2 =
      (acc.2 && l.all (fun b => texRefs.any (fun t => pyStrip b == pyStrip t))) := by
  induction l generalizing acc with
  | nil => simp
  | cons b bs ih =>
    rw [List.foldl_cons, ih]
    simp only [List.all_cons]
    unfold vrStep2
    by_cases hm : texRefs.any (fun t => pyStrip b == pyStrip t)
    · simp [hm]
    · simp only [Bool.not_eq_true] at hm
      simp [hm]

theorem vrFoldl3_flag (bibRefs bibItems : List PyStr) (allow : Bool) (l : List PyStr)
    (acc : List PyStr × Bool) :
    (l.foldl (vrStep3 bibRefs bibItems allow) acc).2 =
      (acc.2 && l.all (fun t => (vrFindMatch (pyStrip t) bibRefs).isSome ||
        (vrFindMatch (pyStrip t) bibItems).isSome)) := by
  induction l generalizing acc with
  | nil => simp
  | cons b bs ih =>
    rw [List.foldl_cons, ih]
    simp only [List.all_cons]
    unfold vrStep3
    match hm : vrFindMatch (pyStrip b) bibRefs with
    | some true => simp [hm]
    | some false => simp [hm]
    | none =>
      match hm2 : vrFindMatch (pyStrip b) bibItems with
      | some true =>
        by_cases ha : allow
        · simp [hm, hm2, ha]
        · simp [hm, hm2, ha]
      | some false => simp [hm, hm2]
      | none => simp [hm, hm2]

/-- C1 (amended): the flag returned by the batch-mode reconciliation is
false exactly when some pass met a missing key — a database key with no
(even case-insensitive) match among the cited keys, a `\bibitem` key with
no exact match among the cited keys, or a cited key matching neither the
database nor the `\bibitem` keys.  "Different case" and "defined as a
bibitem entry" Problems, and the bibitem listing, leave the flag true. -/
theorem C1_flag_iff_missing_key (bibRefs texRefs bibItems : List PyStr) (allow : Bool) :
    (VerifyRefsBatch bibRefs texRefs bibItems allow).1 =
      (bibRefs.all (fun b => (vrFindMatch (pyStrip b) texRefs).isSome) &&
       bibItems.all (fun b => texRefs.any (fun t => pyStrip b == pyStrip t)) &&
       texRefs.all (fun t => (vrFindMatch (pyStrip t) bibRefs).isSome ||
         (vrFindMatch (pyStrip t) bibItems).isSome)) := by
  unfold VerifyRefsBatch
  simp only [vrFoldl1_flag, vrFoldl2_flag, vrFoldl3_flag, Bool.true_and]

/-- Counterexample for C1 as stated: one database key `A` cited as `a`
produces "different case" Problems in passes 1 and 3, yet the flag stays
true. -/
theorem C1_counterexample :
    VerifyRefsBatch ["A".data] ["a".data] [] true =
      (true, [vrMsgCase1 "A".data, vrMsgCase3 "a".data], []) ∧
    [vrMsgCase1 "A".data, vrMsgCase3 "a".data] ≠ [] := by
  exact ⟨by decide, by decide⟩

/-- Python `pat in s` for strings: substring containment. -/
def pyIsInfix (pat l : PyStr) : Bool := (pyFindSubN l pat).isSome

/-- C2 (amended): for database key `Smith2020` and cited key `smith2020`,
the batch reconciliation emits exactly TWO "different case" Problems —
one from the database pass and one from the citation pass — with the
flag left true and zero "not used" or "undefined" diagnostics. -/
theorem C2_case_mismatch_two_problems :
    VerifyRefsBatch ["Smith2020".data] ["smith2020".data] [] true =
      (true, [vrMsgCase1 "Smith2020".data, vrMsgCase3 "smith2020".data], []) ∧
    (VerifyRefsBatch ["Smith2020".data] ["smith2020".data] [] true).2.1.countP
        (fun m => pyIsInfix "different case".data m) = 2 ∧
    (VerifyRefsBatch ["Smith2020".data] ["smith2020".data] [] true).2.1.countP
        (fun m => pyIsInfix "not used".data m) = 0 ∧
    (VerifyRefsBatch ["Smith2020".data] ["smith2020".data] [] true).2.1.countP
        (fun m => pyIsInfix " undefined".data m) = 0 := by
  exact ⟨by decide, by decide, by decide, by decide⟩

/-- Counterexample for C2 as stated: the count of "different case"
Problems for that key is not one (it is two). -/
theorem C2_counterexample :
    ¬ ((VerifyRefsBatch ["Smith2020".data] ["smith2020".data] [] true).2.1.countP
        (fun m => pyIsInfix "different case".data m) = 1) := by
  decide

theorem vrFindMatch_exact (x : PyStr) (l : List PyStr)
    (hex : ∃ y ∈ l, pyStrip y = x)
    (hcase : ∀ y ∈ l, pyLower (pyStrip y) = pyLower x → pyStrip y = x) :
    vrFindMatch x l = some true := by
  induction l with
  | nil =>
    rcases hex with ⟨y, hy, _⟩
    exact absurd hy (List.not_mem_nil y)
  | cons t0 rest ih =>
    by_cases h1 : x = pyStrip t0
    · subst h1
      simp [vrFindMatch]
    · have h2 : ¬ (pyLower x = pyLower (pyStrip t0)) := by
        intro he
        exact h1 ((hcase t0 (List.mem_cons_self t0 rest) he.symm).symm)
      have hrec : vrFindMatch x rest = some true := by
        apply ih
        · rcases hex with ⟨y, hy, hyx⟩
          rcases List.mem_cons.mp hy with rfl | hy2
          · exact absurd hyx.symm h1
          · exact ⟨y, hy2, hyx⟩
        · exact fun y hy hl => hcase y (List.mem_cons_of_mem t0 hy) hl
      simp [vrFindMatch, h1, h2, hrec]

theorem vrFoldl1_id (texRefs : List PyStr) (l : List PyStr)
    (acc : List PyStr × List PyStr × Bool)
    (h : ∀ b ∈ l, vrFindMatch (pyStrip b) texRefs = some true) :
    l.foldl (vrStep1 texRefs) acc = acc := by
  induction l generalizing acc with
  | nil => rfl
  | cons b bs ih =>
    rw [List.foldl_cons]
    have hb := h b (List.mem_cons_self b bs)
    have hstep : vrStep1 texRefs acc b = acc := by
      simp [vrStep1, hb]
    rw [hstep]
    exact ih acc (fun x hx => h x (List.mem_cons_of_mem b hx))

theorem vrFoldl3_id (bibRefs bibItems : List PyStr) (allow : Bool) (l : List PyStr)
    (acc : List PyStr × Bool)
    (h : ∀ t ∈ l, vrFindMatch (pyStrip t) bibRefs = some true) :
    l.foldl (vrStep3 bibRefs bibItems allow) acc = acc := by
  induction l generalizing acc with
  | nil => rfl
  | cons b bs ih =>
    rw [List.foldl_cons]
    have hb := h b (List.mem_cons_self b bs)
    have hstep : vrStep3 bibRefs bibItems allow acc b = acc := by
      simp [vrStep3, hb]
    rw [hstep]
    exact ih acc (fun x hx => h x (List.mem_cons_of_mem b hx))

/-- C7 (amended): when the cited-key sequence equals the database-key
sequence and no two (stripped) keys collide case-insensitively without
being equal, the batch reconciliation returns a true flag with no
Problems and no Warnings. -/
theorem C7_roundtrip (refs : List PyStr) (allow : Bool)
    (h : ∀ x ∈ refs, ∀ y ∈ refs,
        pyLower (pyStrip x) = pyLower (pyStrip y) → pyStrip x = pyStrip y) :
    VerifyRefsBatch refs refs [] allow = (true, [], []) := by
  have hall : ∀ b ∈ refs, vrFindMatch (pyStrip b) refs = some true := by
    intro b hb
    apply vrFindMatch_exact
    · exact ⟨b, hb, rfl⟩
    · exact fun y hy hl => h y hy b hb hl
  unfold VerifyRefsBatch
  rw [vrFoldl1_id _ _ _ hall, vrFoldl3_id _ _ _ _ _ hall]
  simp

/-- Witness for C7's amended statement on a concrete two-key list. -/
theorem C7_roundtrip_witness :
    VerifyRefsBatch ["Alpha".data, "Beta".data] ["Alpha".data, "Beta".data] [] true =
      (true, [], []) :=
  C7_roundtrip ["Alpha".data, "Beta".data] true (by decide)

/-- Counterexample for C7 as stated: with cited keys equal to the database
keys `["a", "A"]`, the flag is true but two "different case" Problems are
appended, so the Problem set is not empty. -/
theorem C7_counterexample :
    VerifyRefsBatch ["a".data, "A".data] ["a".data, "A".data] [] true =
      (true, [vrMsgCase1 "A".data, vrMsgCase3 "A".data], []) ∧
    [vrMsgCase1 "A".data, vrMsgCase3 "A".data] ≠ [] := by
  exact ⟨by decide, by decide⟩

/-! ### `TrimBibFile` — the database trimmer (source lines 1241-1346)

The rewrite loop (lines 1272-1332) is modelled as a fold over the
database lines carrying `(CommentingOut, BraceCount, Changed, ParsedOK,
output lines)`.  The file plumbing around it — writing the staged file
and, only when `Changed` is set, renaming the original to `<name>.old`
and moving the staged file into place (lines 1336-1340) — is I/O; the
model exposes the `Changed` flag that controls that replacement. -/

/-- State of the trim loop. -/
structure TrimSt where
  commenting : Bool
  braceCount : Int
  changed : Bool
  parsedOK : Bool
  out : List PyStr
deriving DecidableEq

/-- One line of the `TrimBibFile` rewrite loop (source lines 1272-1332). -/
def trimStep (texRefs : List PyStr) (keep : Bool) (st : TrimSt) (line : PyStr) : TrimSt :=
  if ['%'].isPrefixOf (pyStrip line) then
    { st with out := st.out ++ [line] }
  else
    if st.commenting then
      let bc := st.braceCount + (line.count lb : Int) - (line.count rb : Int)
      let commenting2 := ¬ (bc ≤ 0)
      let bc2 := if bc ≤ 0 then (0 : Int) else bc
      let line2 := '%' :: line
      if keep then
        { st with commenting := commenting2, braceCount := bc2, out := st.out ++ [line2] }
      else { st with commenting := commenting2, braceCount := bc2 }
    else
      if ['@'].isPrefixOf (pyStrip line) then
        let brace := pyFindChar line lb
        if brace > 0 then
          let comma := pyFindChar line ','
          let ref0 := if comma > 0 then pySlice (brace.toNat + 1) comma.toNat line
                      else line.drop (brace.toNat + 1)
          let ref := pyStrip ref0
          let blank := ref = []
          let used := blank ∨ texRefs.any (fun t => ref == pyStrip t)
          let parsedOK2 := if blank then false else st.parsedOK
          if used then { st with parsedOK := parsedOK2, out := st.out ++ [line] }
          else
            let line2 := '%' :: pyReplaceChar '@' "_AT_".data line
            let bc := (line2.count lb : Int) - (line2.count rb : Int)
            if keep then
              { st with changed := true, commenting := true, braceCount := bc,
                        parsedOK := parsedOK2, out := st.out ++ [line2] }
            else
              { st with changed := true, commenting := true, braceCount := bc,
                        parsedOK := parsedOK2 }
        else { st with out := st.out ++ [line] }
      else { st with out := st.out ++ [line] }

/-- The `TrimBibFile` rewrite pass: output lines and the `Changed` flag
that decides whether the original file is replaced (and backed up as
`.old`). -/
def TrimBibFile (lines texRefs : List PyStr) (keep : Bool) : List PyStr × Bool :=
  let r := lines.foldl (trimStep texRefs keep) ⟨false, 0, false, true, []⟩
  (r.out, r.changed)

/-- The `@misc{key,` opening line of the fixed-shape record used in the
C9 statement. -/
def trimHeadLine (k : PyStr) : PyStr := "@misc".data ++ lb :: (k ++ [','])

/-- The `title` body line of the C9 record. -/
def trimBodyLine : PyStr := "   title = ".data ++ lb :: ("x".data ++ rb :: [','])

/-- The commented-out opening line: `%` prefix, `@` replaced by `_AT_`. -/
def trimHeadCommented (k : PyStr) : PyStr := '%' :: ("_AT_misc".data ++ lb :: (k ++ [',']))

/-- The three lines of the fixed-shape record used in the C9 statement. -/
def trimRecLines (k : PyStr) : List PyStr := [trimHeadLine k, trimBodyLine, [rb]]

/-- The commented-out form of that record: every line gets a leading
`%` and the record marker is replaced by `_AT_`. -/
def trimRecCommented (k : PyStr) : List PyStr :=
  [trimHeadCommented k, '%' :: trimBodyLine, ['%', rb]]

theorem pyReplaceChar_not_mem {c : Char} {rep l : PyStr} (h : c ∉ l) :
    pyReplaceChar c rep l = l := by
  induction l with
  | nil => rfl
  | cons x t ih =>
    have hx : ¬ x = c := fun he => h (he ▸ List.mem_cons_self x t)
    have ht : c ∉ t := fun hm => h (List.mem_cons_of_mem x hm)
    simp [pyReplaceChar, hx, ih ht]

theorem pyReplaceChar_append (c : Char) (rep a b : PyStr) :
    pyReplaceChar c rep (a ++ b) = pyReplaceChar c rep a ++ pyReplaceChar c rep b := by
  induction a with
  | nil => rfl
  | cons x t ih => simp [pyReplaceChar, ih]

/-- A non-comment, non-record line outside a commented block is written
through unchanged. -/
theorem trimStep_plain (texRefs : List PyStr) (keep : Bool) (st : TrimSt) (line : PyStr)
    (hcom : st.commenting = false)
    (h1 : ['%'].isPrefixOf (pyStrip line) = false)
    (h2 : ['@'].isPrefixOf (pyStrip line) = false) :
    trimStep texRefs keep st line = { st with out := st.out ++ [line] } := by
  simp [trimStep, hcom, h1, h2]

theorem isPrefixOf_single_cons_ne {a x : Char} (X : PyStr) (h : (a == x) = false) :
    [a].isPrefixOf (x :: X) = false := by
  simp [List.isPrefixOf, h]

theorem isPrefixOf_single_cons_eq (a : Char) (X : PyStr) :
    [a].isPrefixOf (a :: X) = true := by
  simp [List.isPrefixOf]

/-- Shared facts about the `@misc{key,` opening line of the C9 records. -/
theorem trimRecHeadFacts (k : PyStr) (hkc : (',' : Char) ∉ k) :
    ['%'].isPrefixOf (pyStrip (trimHeadLine k)) = false ∧
    ['@'].isPrefixOf (pyStrip (trimHeadLine k)) = true ∧
    pyFindChar (trimHeadLine k) lb = ((5 : Nat) : Int) ∧
    pyFindChar (trimHeadLine k) ',' = ((k.length + 6 : Nat) : Int) ∧
    pySlice 6 (k.length + 6) (trimHeadLine k) = k := by
  have hshape : trimHeadLine k = '@' :: ("misc".data ++ lb :: (k ++ [','])) := rfl
  refine ⟨?_, ?_, ?_, ?_, ?_⟩
  · rw [hshape, pyStrip_cons_nonws _ (by decide)]
    exact isPrefixOf_single_cons_ne _ (by decide)
  · rw [hshape, pyStrip_cons_nonws _ (by decide)]
    exact isPrefixOf_single_cons_eq _ _
  · apply pyFindChar_eq
    have h := pyFindCharN_append_first (b := k ++ [',']) (a := "@misc".data) (c := lb)
      (by decide)
    unfold trimHeadLine
    simpa using h
  · apply pyFindChar_eq
    have hmem : (',' : Char) ∉ "@misc".data ++ lb :: k := by
      intro hm
      rcases List.mem_append.mp hm with hm1 | hm1
      · revert hm1
        decide
      · rcases List.mem_cons.mp hm1 with hm2 | hm2
        · revert hm2
          decide
        · exact hkc hm2
    have h := pyFindCharN_append_first (b := ([] : PyStr)) (a := "@misc".data ++ lb :: k)
      (c := ',') hmem
    have he : ("@misc".data ++ lb :: k) ++ ',' :: ([] : PyStr) = trimHeadLine k := by
      unfold trimHeadLine
      simp
    rw [he] at h
    rw [h]
    have hlen : ("@misc".data ++ lb :: k).length = k.length + 6 := by
      simp
    rw [hlen]
  · unfold pySlice
    have he : trimHeadLine k = ("@misc".data ++ lb :: k) ++ [','] := by
      unfold trimHeadLine
      simp
    rw [he]
    have hlen : k.length + 6 = ("@misc".data ++ lb :: k).length := by
      simp
    rw [hlen, List.take_left]
    have he2 : "@misc".data ++ lb :: k = ("@misc".data ++ [lb]) ++ k := by simp
    rw [he2]
    have hlen2 : (6 : Nat) = ("@misc".data ++ [lb]).length := by decide
    rw [hlen2, List.drop_left]

/-- The opening line of a record whose key is in the cited list is written
through unchanged. -/
theorem trimStep_used (texRefs : List PyStr) (keep : Bool) (st : TrimSt) (k : PyStr)
    (hcom : st.commenting = false) (hknil : k ≠ [])
    (hkc : (',' : Char) ∉ k) (hks : pyStrip k = k)
    (hused : texRefs.any (fun t => k == pyStrip t) = true) :
    trimStep texRefs keep st (trimHeadLine k) =
      { st with out := st.out ++ [trimHeadLine k] } := by
  obtain ⟨hpc, hat, hfb, hfc, hslice⟩ := trimRecHeadFacts k hkc
  have hpos : (0 : Int) < ((k.length + 6 : Nat) : Int) := by
    exact_mod_cast Nat.succ_pos _
  simp only [List.any_eq_true, beq_iff_eq] at hused
  have hpos2 : (0 : Int) < (k.length : Int) + 6 := by omega
  have htn : ((k.length : Int) + 6).toNat = k.length + 6 := by omega
  simp +decide [trimStep, hcom, hpc, hat, hfb, hfc, hpos2, htn, hslice, hks, hknil, hused]

/-- The opening line of a record whose key is not cited (and not blank) is
commented out: `%` prefix, `@` replaced by `_AT_`, `Changed` and the
commenting state set, brace balance started at 1. -/
theorem trimStep_unused (texRefs : List PyStr) (keep : Bool) (st : TrimSt) (k : PyStr)
    (hcom : st.commenting = false) (hknil : k ≠ [])
    (hkc : (',' : Char) ∉ k) (hks : pyStrip k = k)
    (hklb : lb ∉ k) (hkrb : rb ∉ k) (hkat : ('@' : Char) ∉ k)
    (hused : texRefs.any (fun t => k == pyStrip t) = false) :
    trimStep texRefs keep st (trimHeadLine k) =
      (if keep then
        { st with changed := true, commenting := true, braceCount := 1,
                  out := st.out ++ [trimHeadCommented k] }
      else
        { st with changed := true, commenting := true, braceCount := 1 }) := by
  obtain ⟨hpc, hat, hfb, hfc, hslice⟩ := trimRecHeadFacts k hkc
  have hpos : (0 : Int) < ((k.length + 6 : Nat) : Int) := by
    exact_mod_cast Nat.succ_pos _
  have hrepl : pyReplaceChar '@' "_AT_".data (trimHeadLine k) =
      "_AT_misc".data ++ lb :: (k ++ [',']) := by
    have he : trimHeadLine k = '@' :: ("misc".data ++ [lb]) ++ (k ++ [',']) := by
      unfold trimHeadLine
      simp
    rw [he, pyReplaceChar_append]
    rw [pyReplaceChar_append (a := k) (b := [','])]
    rw [pyReplaceChar_not_mem hkat]
    have h1 : pyReplaceChar '@' "_AT_".data ('@' :: ("misc".data ++ [lb])) =
        "_AT_misc".data ++ [lb] := by decide
    rw [h1]
    have h2 : pyReplaceChar '@' "_AT_".data [','] = [','] := by decide
    rw [h2]
    simp
  have hcomm : '%' :: ("_AT_misc".data ++ lb :: (k ++ [','])) = trimHeadCommented k := rfl
  have hcount1 : ((trimHeadCommented k).count lb : Int) = 1 := by
    have hk0 : k.count lb = 0 := List.count_eq_zero.mpr hklb
    unfold trimHeadCommented
    simp [List.count_cons, List.count_append, hk0]
    decide
  have hcount2 : ((trimHeadCommented k).count rb : Int) = 0 := by
    have hk0 : k.count rb = 0 := List.count_eq_zero.mpr hkrb
    unfold trimHeadCommented
    simp [List.count_cons, List.count_append, hk0]
    decide
  have hex : ¬ ∃ x ∈ texRefs, k = pyStrip x := by
    rintro ⟨x, hx, he⟩
    have hany : texRefs.any (fun t => k == pyStrip t) = true :=
      List.any_eq_true.mpr ⟨x, hx, by simpa using he⟩
    rw [hused] at hany
    exact Bool.noConfusion hany
  have hpos2 : (0 : Int) < (k.length : Int) + 6 := by omega
  have htn : ((k.length : Int) + 6).toNat = k.length + 6 := by omega
  simp at hrepl hcomm
  simp +decide [trimStep, hcom, hpc, hat, hfb, hfc, hpos2, htn, hslice, hks, hknil, hex,
    hrepl, hcomm, hcount1, hcount2]

/-- C9: for a database with a cited record `key1` and an uncited record
`key2`, the trim pass in comment mode keeps both records with every line
of `key2`'s record prefixed by `%` and its `@` replaced by `_AT_`, while
in delete mode `key2`'s lines are absent entirely; `key1`'s lines are
written unchanged in both modes, and the `Changed` flag — which is what
makes `TrimBibFile` rename the original to a `.old` backup and install
the rewritten file (source lines 1336-1340) — is set in both modes. -/
theorem C9_trimmer_comment_and_delete (k1 k2 : PyStr)
    (h1nil : k1 ≠ []) (h2nil : k2 ≠ [])
    (h1s : pyStrip k1 = k1) (h2s : pyStrip k2 = k2)
    (h1c : (',' : Char) ∉ k1) (h2c : (',' : Char) ∉ k2)
    (h2lb : lb ∉ k2) (h2rb : rb ∉ k2) (h2at : ('@' : Char) ∉ k2)
    (hne : k2 ≠ k1) :
    TrimBibFile (trimRecLines k1 ++ trimRecLines k2) [k1] true =
      (trimRecLines k1 ++ trimRecCommented k2, true) ∧
    TrimBibFile (trimRecLines k1 ++ trimRecLines k2) [k1] false =
      (trimRecLines k1, true) := by
  have hused1 : [k1].any (fun t => k1 == pyStrip t) = true := by
    simp [h1s]
  have hused2 : [k1].any (fun t => k2 == pyStrip t) = false := by
    simp [h1s, hne]
  constructor
  · have s1 : trimStep [k1] true ⟨false, 0, false, true, []⟩ (trimHeadLine k1) =
        ⟨false, 0, false, true, [trimHeadLine k1]⟩ := by
      rw [trimStep_used [k1] true _ k1 rfl h1nil h1c h1s hused1]
      rfl
    have s2 : trimStep [k1] true ⟨false, 0, false, true, [trimHeadLine k1]⟩ trimBodyLine =
        ⟨false, 0, false, true, [trimHeadLine k1, trimBodyLine]⟩ := by
      rw [trimStep_plain _ _ _ _ rfl (by decide) (by decide)]
      rfl
    have s3 : trimStep [k1] true ⟨false, 0, false, true, [trimHeadLine k1, trimBodyLine]⟩
        [rb] = ⟨false, 0, false, true, [trimHeadLine k1, trimBodyLine, [rb]]⟩ := by
      rw [trimStep_plain _ _ _ _ rfl (by decide) (by decide)]
      rfl
    have s4 : trimStep [k1] true ⟨false, 0, false, true,
          [trimHeadLine k1, trimBodyLine, [rb]]⟩ (trimHeadLine k2) =
        ⟨true, 1, true, true,
          [trimHeadLine k1, trimBodyLine, [rb], trimHeadCommented k2]⟩ := by
      rw [trimStep_unused [k1] true _ k2 rfl h2nil h2c h2s h2lb h2rb h2at hused2]
      rfl
    have s5 : trimStep [k1] true ⟨true, 1, true, true,
          [trimHeadLine k1, trimBodyLine, [rb], trimHeadCommented k2]⟩ trimBodyLine =
        ⟨true, 1, true, true,
          [trimHeadLine k1, trimBodyLine, [rb], trimHeadCommented k2,
           '%' :: trimBodyLine]⟩ := by
      simp +decide [trimStep]
    have s6 : trimStep [k1] true ⟨true, 1, true, true,
          [trimHeadLine k1, trimBodyLine, [rb], trimHeadCommented k2,
           '%' :: trimBodyLine]⟩ [rb] =
        ⟨false, 0, true, true,
          [trimHeadLine k1, trimBodyLine, [rb], trimHeadCommented k2,
           '%' :: trimBodyLine, ['%', rb]]⟩ := by
      simp +decide [trimStep]
    unfold TrimBibFile trimRecLines
    simp only [List.cons_append, List.nil_append, List.foldl_cons, List.foldl_nil]
    rw [s1, s2, s3, s4, s5, s6]
    simp [trimRecCommented]
  · have s1 : trimStep [k1] false ⟨false, 0, false, true, []⟩ (trimHeadLine k1) =
        ⟨false, 0, false, true, [trimHeadLine k1]⟩ := by
      rw [trimStep_used [k1] false _ k1 rfl h1nil h1c h1s hused1]
      rfl
    have s2 : trimStep [k1] false ⟨false, 0, false, true, [trimHeadLine k1]⟩ trimBodyLine =
        ⟨false, 0, false, true, [trimHeadLine k1, trimBodyLine]⟩ := by
      rw [trimStep_plain _ _ _ _ rfl (by decide) (by decide)]
      rfl
    have s3 : trimStep [k1] false ⟨false, 0, false, true, [trimHeadLine k1, trimBodyLine]⟩
        [rb] = ⟨false, 0, false, true, [trimHeadLine k1, trimBodyLine, [rb]]⟩ := by
      rw [trimStep_plain _ _ _ _ rfl (by decide) (by decide)]
      rfl
    have s4 : trimStep [k1] false ⟨false, 0, false, true,
          [trimHeadLine k1, trimBodyLine, [rb]]⟩ (trimHeadLine k2) =
        ⟨true, 1, true, true, [trimHeadLine k1, trimBodyLine, [rb]]⟩ := by
      rw [trimStep_unused [k1] false _ k2 rfl h2nil h2c h2s h2lb h2rb h2at hused2]
      rfl
    have s5 : trimStep [k1] false ⟨true, 1, true, true,
          [trimHeadLine k1, trimBodyLine, [rb]]⟩ trimBodyLine =
        ⟨true, 1, true, true, [trimHeadLine k1, trimBodyLine, [rb]]⟩ := by
      simp +decide [trimStep]
    have s6 : trimStep [k1] false ⟨true, 1, true, true,
          [trimHeadLine k1, trimBodyLine, [rb]]⟩ [rb] =
        ⟨false, 0, true, true, [trimHeadLine k1, trimBodyLine, [rb]]⟩ := by
      simp +decide [trimStep]
    unfold TrimBibFile trimRecLines
    simp only [List.cons_append, List.nil_append, List.foldl_cons, List.foldl_nil]
    rw [s1, s2, s3, s4, s5, s6]

/-- Witness for C9 at concrete keys `key1` (cited) and `key2` (uncited). -/
theorem C9_trimmer_witness :
    TrimBibFile (trimRecLines "key1".data ++ trimRecLines "key2".data) ["key1".data] true =
      (trimRecLines "key1".data ++ trimRecCommented "key2".data, true) ∧
    TrimBibFile (trimRecLines "key1".data ++ trimRecLines "key2".data) ["key1".data] false =
      (trimRecLines "key1".data, true) :=
  C9_trimmer_comment_and_delete "key1".data "key2".data (by decide) (by decide)
    (by decide) (by decide) (by decide) (by decide) (by decide) (by decide)
    (by decide) (by decide)

/-! ### `GetInitial` and `AuthorScanCallback` — the author-list parser
(source lines 1359-1377 and 1408-1756)

The callback is modelled stage by stage in source order: trimming the
brace group to the text before `\affil`, removing forced line breaks,
normalising `\X c` accents to `\X{c}`, masking math spans, the
two-author comma insertion, the trailing-comma and serial-comma fixes,
and the per-chunk name analysis that assembles each `Surname,~I.` entry.
Python raises `IndexError` on an out-of-range string index; the model
uses `getD` with a default, which agrees with the source on every input
the source survives. -/

/-- The accent marker characters of source line 1447. -/
def Accents : List Char :=
  [Char.ofNat 96, sq, '^', Char.ofNat 34, 'H', '~', 'c', 'k', 'l', '=',
   'b', '.', 'd', 'r', 'u', 'v']

/-- The `while` loop of source lines 1449-1459 for one accent character,
with fuel; each pass replaces every occurrence of `\X c` (for the letter
found after one occurrence) by `\X{c}`.  On the degenerate input where
`\X ` sits at the very end of the string the source loops forever; the
model stops there instead. -/
def accentFixOne (c : Char) (fuel : Nat) (l : PyStr) : PyStr :=
  match fuel with
  | 0 => l
  | fuel + 1 =>
    let idx := pyFindSub l ['\\', c, ' ']
    if idx ≥ 0 then
      if idx.toNat + 3 < l.length then
        let ch := l.getD (idx.toNat + 3) ' '
        accentFixOne c fuel (pyReplaceSub l ['\\', c, ' ', ch] ['\\', c, lb, ch, rb])
      else l
    else l

/-- The accent-normalisation loop over all accent characters (source
lines 1448-1459). -/
def accentAll (l : PyStr) : PyStr :=
  Accents.foldl (fun s c => accentFixOne c (s.length + 1) s) l

/-- One character of the math-masking scan (source lines 1481-1497), on
`(inMath, aString, mathCount, posn, notes)`. -/
def mathStep (full : PyStr) (st : Bool × PyStr × Nat × Nat × List PyStr)
    (ic : Nat × Char) : Bool × PyStr × Nat × Nat × List PyStr :=
  let (inMath, aStr, mathCount, posn, notes) := st
  let (index, ch) := ic
  if ch = '$' then
    if inMath then
      let notes2 :=
        if mathCount > 0 ∧ index < full.length - 1 then
          notes ++ ["Possible missing comma near ".data ++ [sq] ++
            pySlice posn index full ++ [sq]]
        else notes
      (false, aStr, mathCount + 1, index, notes2)
    else (true, aStr ++ [' '], mathCount, posn, notes)
  else
    if inMath then (inMath, aStr, mathCount, posn, notes)
    else
      let mc := if ch = ',' then 0 else mathCount
      (inMath, aStr ++ [ch], mc, posn, notes)

/-- The math-masking stage (source lines 1475-1497): replaces each math
span by a single space and notes a possible missing comma when one name
contains more than one span. -/
def mathMask (l : PyStr) : PyStr × List PyStr :=
  let r := l.enum.foldl (mathStep l) (false, [], 0, 0, [])
  (r.2.1, r.2.2.2.2)

/-- The serial-comma heuristic (source lines 1533-1545): if the last
chunk does not start with "and" but contains " and ", note it, replace
every " and " in the string by a comma and re-split. -/
def serialFix (aString : PyStr) (aList : List PyStr) : List PyStr × List PyStr :=
  let n := aList.length
  if n > 0 then
    let author0 := aList.getD (n - 1) []
    let author1 := if author0 = [] ∧ n > 1 then aList.getD (n - 2) [] else author0
    let author2 := pyStrip (pyReplaceChar '.' [' '] (pyReplaceChar '~' [' '] author1))
    if ¬ ("and".data.isPrefixOf author2) then
      if pyFindSub author2 " and ".data ≥ 0 then
        (pySplit ',' (pyReplaceSub aString " and ".data [',']),
         ["Note: ".data ++ [sq] ++ author2 ++ [sq] ++
            " may have a missing serial comma.".data])
      else (aList, [])
    else (aList, [])
  else (aList, [])

/-- `GetInitial` (source lines 1359-1377): the initial at a given index
of a forename, allowing the accent form `\X{c}`; returns the initial
(as a string, possibly the five-character accent group or `?`) and the
notes appended. -/
def GetInitial (forename : PyStr) (index : Nat) : PyStr × List PyStr :=
  let letter0 := forename.getD index ' '
  let initial0 : PyStr := [letter0]
  let p :=
    if initial0 = ['\\'] then
      if forename.length > index + 4 ∧ forename.getD (index + 2) ' ' = lb ∧
          forename.getD (index + 4) ' ' = rb then
        (pySlice index (index + 5) forename, forename.getD (index + 3) ' ')
      else (['?'], letter0)
    else (initial0, letter0)
  if p.1 = ['?'] then
    (p.1, ["Unexpected control sequence for initial in ".data ++ forename])
  else
    if p.2.isLower then
      (p.1, ["Initial letter in ".data ++ [sq] ++ forename ++ [sq] ++
        " is in lower case".data])
    else (p.1, [])

/-- The surname-casing check (source lines 1645-1662): a lower-case first
letter is noted; an internal upper-case letter not after a hyphen, an
apostrophe, `Mac` or `Mc` is noted once and stops the scan. -/
def surnameCaseGo (surname : PyStr) (chars : PyStr) (firstLetter : Bool)
    (prevChar : PyStr) (prevChars : PyStr) : List PyStr :=
  match chars with
  | [] => []
  | c :: rest =>
    if firstLetter then
      (if c.isLower then
        ["Surname ".data ++ [sq] ++ surname ++ [sq] ++ " starts in lower case".data]
      else []) ++ surnameCaseGo surname rest false [c] (prevChars ++ [c])
    else
      if c.isUpper ∧ prevChar ≠ ['-'] ∧ prevChar ≠ [sq] ∧
          prevChars ≠ "Mac".data ∧ prevChars ≠ "Mc".data then
        ["Surname ".data ++ [sq] ++ surname ++ [sq] ++
          " contains upper case characters".data]
      else surnameCaseGo surname rest false [c] (prevChars ++ [c])

/-- Notes from the surname-casing check. -/
def surnameCaseNotes (surname : PyStr) : List PyStr :=
  surnameCaseGo surname surname true [] []

/-- Membership in the surname-particle list (source lines 1668-1674). -/
def isParticle (nm : PyStr) : Bool :=
  decide (pyLower nm ∈ ["van".data, "de".data, "den".data, "von".data,
    "le".data, "da".data, "der".data])

/-- The backward walk over particle words (source lines 1664-1679): takes
the count of names before the surname and the current surname, returns
the compound surname, the remaining forename count and whether any
particle was consumed. -/
def particleWalk (nameList : List PyStr) : Nat → PyStr → PyStr × Nat × Bool
  | 0, surname => (surname, 0, false)
  | m + 1, surname =>
    let prev := nameList.getD m []
    if isParticle prev then
      let r := particleWalk nameList m (prev ++ ' ' :: surname)
      (r.1, r.2.1, true)
    else (surname, m + 1, false)

/-- One forename of the initial-assembly loop (source lines 1721-1741),
on `(nameString, notes, initialCount)`. -/
def initialStep (st : PyStr × List PyStr × Nat) (forename : PyStr) :
    PyStr × List PyStr × Nat :=
  let (nameString, notes, count) := st
  let r1 := GetInitial forename 0
  let notesA := notes ++ r1.2
  let count2 := count + 1
  if r1.1 = ['-'] then
    let r2 := GetInitial forename 1
    (nameString ++ '-' :: (r2.1 ++ ['.']), notesA ++ r2.2, count2)
  else
    let ns2 := nameString ++ '~' :: (r1.1 ++ ['.'])
    let d := pyFindChar forename '-'
    if d > 0 then
      let r3 := GetInitial forename (d.toNat + 1)
      (ns2 ++ '-' :: (r3.1 ++ ['.']), notesA ++ r3.2, count2)
    else (ns2, notesA, count2)

/-- One author chunk (the body of the loop at source lines 1551-1751), on
`(orderWarning, authors, notes)`. -/
def authorChunk (len : Nat) (st : Bool × List PyStr × List PyStr)
    (ic : Nat × PyStr) : Bool × List PyStr × List PyStr :=
  let (orderWarning, authors, notes) := st
  let (index, author0) := ic
  let slashTwiddle := pyFindSub author0 "\\~".data ≥ 0
  let author1 := if slashTwiddle then
      pyReplaceSub author0 "\\~".data "\\twiddle".data else author0
  let author2 := pyStrip (pyReplaceChar '.' [' '] (pyReplaceChar '~' [' '] author1))
  let author3 := if slashTwiddle then
      pyReplaceSub author2 "\\twiddle".data "\\~".data else author2
  let andExpected := index = len - 1 ∧ len > 1
  let pand :=
    if "and".data.isPrefixOf author3 then
      (author3.drop 4,
       if ¬ andExpected then
         notes ++ ["Note: unexpected ".data ++ [sq] ++ "and".data ++ [sq] ++
           " before last author".data]
       else notes)
    else
      (author3,
       if andExpected then
         notes ++ ["Note: ".data ++ [sq] ++ "and".data ++ [sq] ++
           " missing from last of multiple authors".data]
       else notes)
  let author4 := pand.1
  let notes1 := pand.2
  let nameList := pySplitWs author4
  let iffy := nameList.filter (fun nm => decide (pyLower nm ∈
    ["on".data, "behalf".data, "team".data, "the".data, "of".data]))
  let notes2 :=
    if iffy.length > 0 then
      notes1 ++ ["The following may not be real names: ".data ++
        List.intercalate ", ".data iffy]
    else notes1
  let numNames0 := nameList.length
  if numNames0 = 0 then (orderWarning, authors, notes2)
  else
    let surname0 := nameList.getD (numNames0 - 1) []
    let sfx :=
      if numNames0 > 1 then
        if pyLower surname0 = "jr".data then
          ("Jr.".data, numNames0 - 1, nameList.getD (numNames0 - 2) [])
        else if pyLower surname0 = "sr".data then
          ("Sr.".data, numNames0 - 1, nameList.getD (numNames0 - 2) [])
        else if surname0 = "II".data ∨ surname0 = "III".data ∨
            surname0 = "IV".data ∨ surname0 = "V".data then
          (surname0, numNames0 - 1, nameList.getD (numNames0 - 2) [])
        else (([] : PyStr), numNames0, surname0)
      else (([] : PyStr), numNames0, surname0)
    let suffix := sfx.1
    let numNames1 := sfx.2.1
    let surname1 := sfx.2.2
    let notes3 := notes2 ++ surnameCaseNotes surname1
    let pw := particleWalk nameList (numNames1 - 1) surname1
    let surname2 := pw.1
    let numNames2 := pw.2.1
    let notes4 :=
      if pw.2.2 then notes3 ++ [surname2 ++ " assumed to be a surname".data]
      else notes3
    let nameString0 := surname2 ++ [',']
    let notes5 :=
      if numNames2 > 1 then
        let lastForename := nameList.getD (numNames2 - 1) []
        let letters := lastForename.countP (fun c => c.isUpper || c.isLower)
        if letters > 1 then
          notes4 ++ ["Might ".data ++ [sq] ++ lastForename ++ ' ' :: surname2 ++
            [sq] ++ " be a surname?".data]
        else notes4
      else notes4
    let ow :=
      if surname2.length = 1 ∧ numNames2 > 0 ∧ (nameList.getD 0 []).length > 1 then
        let n1 := if ¬ orderWarning then
            notes5 ++ ["Names should end with the surname".data] else notes5
        (true,
         n1 ++ ["Might ".data ++ nameList.getD 0 [] ++ ' ' :: surname2 ++
           " have been given surname first?".data])
      else (orderWarning, notes5)
    let orderWarning2 := ow.1
    let notes6 := ow.2
    let r := (nameList.take numNames2).foldl initialStep (nameString0, notes6, 0)
    let nameString1 := r.1
    let notes7 := r.2.1
    let initialCount := r.2.2
    let nameString2 := if suffix ≠ [] then nameString1 ++ ",~".data ++ suffix
      else nameString1
    let notes8 :=
      if initialCount = 0 then
        if surname2.length = 1 then
          notes7 ++ ["Might ".data ++ surname2 ++ " be a misplaced initial?".data]
        else notes7 ++ [surname2 ++ " seems to be just a surname".data]
      else notes7
    (orderWarning2, authors ++ [nameString2], notes8)

/-- `AuthorScanCallback` (source lines 1408-1756): from the words of a
directive, the author entries appended to the author list and the notes
appended. -/
def AuthorScanCallback (words : List PyStr) : List PyStr × List PyStr :=
  if words.length > 1 ∧ words.getD 0 [] = "\\author".data then
    let authors0 := pyStrip (words.getD 1 [])
    if authors0.length > 0 then
      if authors0.headD ' ' = lb then
        let e0 := pyFindSub authors0 "\\affil".data
        let endIndex : Int := if e0 < 0 then pyRFindChar authors0 rb else e0
        if endIndex ≤ 0 then ([], ["Misformed author list".data])
        else
          let authors1 := pySlice 1 endIndex.toNat authors0
          let authors2 := pyReplaceSub authors1 "\\\\*".data []
          let authors3 := pyReplaceSub authors2 "\\\\".data []
          let authors4 := pyReplaceSub authors3 "\\ ".data [' ']
          let rawAuthors := authors4
          let authors5 := accentAll authors4
          let authors6 := pyStrip authors5
          let mm := mathMask authors6
          let aString0 := mm.1
          let mathNotes := mm.2
          let aString1 :=
            if pyFindChar aString0 ',' < 0 then
              let andIndex := pyFindSub aString0 " and ".data
              if andIndex > 0 then
                aString0.take andIndex.toNat ++ ',' :: aString0.drop andIndex.toNat
              else aString0
            else aString0
          let aString2 := pyStrip aString1
          let tc :=
            if aString2.length > 0 ∧ aString2.getLastD ' ' = ',' then
              (aString2.take (aString2.length - 1),
               ["Extraneous comma at end of author list".data])
            else (aString2, ([] : List PyStr))
          let aString3 := tc.1
          let aList0 := pySplit ',' aString3
          let sf := serialFix aString3 aList0
          let aList := sf.1
          let notesPre := mathNotes ++ tc.2 ++ sf.2
          let r := aList.enum.foldl (authorChunk aList.length) (false, [], notesPre)
          let notesFinal := if r.2.2.length > 0 then r.2.2 ++ [rawAuthors] else r.2.2
          (r.2.1, notesFinal)
      else ([], [])
    else ([], [])
  else ([], [])

/-- C8 (amended): the author list
`{A.~B. Smith, C. Jones, and D.~E. Jones-Brown}` parses to exactly three
records `Smith,~A.~B.`, `Jones,~C.` and `Jones-Brown,~D.~E.` with zero
notes; the initials of the third author are joined by `~` (the hyphen of
the input lies in the surname `Jones-Brown`, not between the initials). -/
theorem C8_author_list_example :
    AuthorScanCallback ["\\author".data,
        "\x7bA.~B. Smith, C. Jones, and D.~E. Jones-Brown\x7d".data] =
      (["Smith,~A.~B.".data, "Jones,~C.".data, "Jones-Brown,~D.~E.".data], []) := by
  decide

/-- Counterexample for C8 as stated: the third author record is not
`Jones-Brown,~D.-E.`. -/
theorem C8_counterexample :
    (AuthorScanCallback ["\\author".data,
        "\x7bA.~B. Smith, C. Jones, and D.~E. Jones-Brown\x7d".data]).1.getD 2 [] ≠
      "Jones-Brown,~D.-E.".data := by
  decide

/-- C10: a forename starting with the escape character whose shape is not
exactly `\X{c}` (brace at offset 2, closing brace at offset 4, at least
five characters available) makes `GetInitial` return the literal `?` with
an "Unexpected control sequence" note; in the assembled author record the
`?` stands in place of that initial, and the note is reported. -/
theorem C10_unresolved_escape_initial (f : PyStr) (i : Nat)
    (h1 : f.getD i ' ' = '\\')
    (h2 : ¬ (f.length > i + 4 ∧ f.getD (i + 2) ' ' = lb ∧ f.getD (i + 4) ' ' = rb)) :
    GetInitial f i =
      (['?'], ["Unexpected control sequence for initial in ".data ++ f]) ∧
    (AuthorScanCallback ["\\author".data, "\x7b\\q. Smith\x7d".data]).1 =
      ["Smith,~?.".data] ∧
    '?' ∈ "Smith,~?.".data ∧
    "Unexpected control sequence for initial in \\q".data ∈
      (AuthorScanCallback ["\\author".data, "\x7b\\q. Smith\x7d".data]).2 := by
  refine ⟨?_, by decide, by decide, by decide⟩
  have h1' : f[i]?.getD ' ' = '\\' := by
    simpa [List.getD_eq_getElem?_getD] using h1
  have h2' : ¬ (i + 4 < f.length ∧ f[i + 2]?.getD ' ' = lb ∧ f[i + 4]?.getD ' ' = rb) := by
    intro hc
    exact h2 ⟨hc.1, by simpa [List.getD_eq_getElem?_getD] using hc.2.1,
      by simpa [List.getD_eq_getElem?_getD] using hc.2.2⟩
  simp [GetInitial, h1', h2']

/-- Witness for C10 at the two-character forename `\q`. -/
theorem C10_unresolved_escape_witness :
    GetInitial "\\q".data 0 =
      (['?'], ["Unexpected control sequence for initial in ".data ++ "\\q".data]) :=
  (C10_unresolved_escape_initial "\\q".data 0 (by decide) (by decide)).1

end AdassChecks

